import Mathlib

/-!
# Verification of the negotiation turn engine

A shallow embedding of the core of `scripts/negotiation_utils.py` and
`scripts/run_production_negotiation.py`: the offer normalizer, the
convergence detector, the outcome classifier, the perspective resolver
(opponent target-price adjustment and pricing strings), and the
orchestrator's extension / final-offer logic.

Conventions of the embedding:
* Python values flowing through the engine are modelled by the JSON-like
  type `JVal`; Python `None` is `JVal.null`, dicts are association lists
  (`Obj`) iterated in insertion order with unique keys.
* Python floats are modelled by exact rationals `ℚ`; `round` is modelled
  by `pyRound` (round half to even, as CPython does for floats).
* Statements that can raise are modelled in `Except String`; the error
  string names the Python exception.
* `str.lower`/`str.upper` are modelled on ASCII (plus the German umlauts
  handled explicitly by the source); the `unicodedata.NFD` normalization
  step of slugification is the identity on such strings and is omitted.
* Python float literal parsing (`float(str)`) is modelled for plain
  decimal literals (optional sign, digits, optional fraction), which is
  the shape the engine's data takes; `inf`/`nan`/exponents are not
  modelled and parse to `none`.
-/

namespace Arian

/-- JSON-like values: the shape of data the Python engine passes around. -/
inductive JVal where
  | null : JVal
  | bool : Bool → JVal
  | num : ℚ → JVal
  | str : String → JVal
  | arr : List JVal → JVal
  | obj : List (String × JVal) → JVal

/-- A Python dict with string keys, in insertion order. -/
abbrev Obj := List (String × JVal)

/-- First value stored under key `k`, if the key is present. -/
def getOpt (o : Obj) (k : String) : Option JVal :=
  (o.find? (fun p => p.1 == k)).map (fun p => p.2)

/-- Python `d.get(k)`: `None` when the key is absent. -/
def pyGet (o : Obj) (k : String) : JVal :=
  (getOpt o k).getD JVal.null

/-- Python `d.get(k, default)`. -/
def pyGetD (o : Obj) (k : String) (d : JVal) : JVal :=
  (getOpt o k).getD d

/-- Python `k in d`. -/
def hasKey (o : Obj) (k : String) : Bool :=
  (getOpt o k).isSome

/-- Python truthiness of a value. -/
def truthy : JVal → Bool
  | JVal.null => false
  | JVal.bool b => b
  | JVal.num q => q != 0
  | JVal.str s => s ≠ ""
  | JVal.arr xs => !xs.isEmpty
  | JVal.obj fs => !fs.isEmpty

/-- Python `a or b` (value-returning). -/
def pyOr (a b : JVal) : JVal :=
  if truthy a then a else b

/-- Whether the value is a dict. -/
def isObjB : JVal → Bool
  | JVal.obj _ => true
  | _ => false

/-- Whether the value is `null`. -/
def isNullB : JVal → Bool
  | JVal.null => true
  | _ => false

/-- Python dict insertion `d[k] = v`: overwrite in place, else append. -/
def insertKey {α : Type} (m : List (String × α)) (k : String) (v : α) :
    List (String × α) :=
  if m.any (fun p => p.1 == k) then
    m.map (fun p => if p.1 == k then (k, v) else p)
  else
    m ++ [(k, v)]

/-- Lookup in a string-keyed association list. -/
def lookupStr {α : Type} (m : List (String × α)) (k : String) : Option α :=
  (m.find? (fun p => p.1 == k)).map (fun p => p.2)

/-! ## Numeric primitives -/

/-- Numeric value of a digit list (most significant first). -/
def digitsVal (cs : List Char) : ℕ :=
  cs.foldl (fun n c => n * 10 + (c.toNat - '0'.toNat)) 0

/-- The rational value of the decimal literal with integer digits `ip`
and fractional digits `fp` (written with `Rat.divInt` so that it is
kernel-computable). -/
def decimalVal (ip fp : List Char) : ℚ :=
  Rat.divInt ((digitsVal ip : ℤ) * 10 ^ fp.length + (digitsVal fp : ℤ))
    ((10 : ℤ) ^ fp.length)

/-- Parse an unsigned decimal literal `\d*(\.\d*)?` (at least one digit
overall) consuming the whole input. -/
def parseUnsigned (cs : List Char) : Option ℚ :=
  let intPart := cs.takeWhile Char.isDigit
  let rest := cs.dropWhile Char.isDigit
  match rest with
  | [] => if intPart.isEmpty then none else some (decimalVal intPart [])
  | '.' :: frac =>
      if frac.all Char.isDigit && !(intPart.isEmpty && frac.isEmpty) then
        some (decimalVal intPart frac)
      else none
  | _ => none

/-- Parse a full signed decimal literal (as `float(str)` does, modulo
whitespace stripping and the unmodelled `inf`/`nan`/exponent forms). -/
def parseSigned (cs : List Char) : Option ℚ :=
  match cs with
  | '+' :: rest => parseUnsigned rest
  | '-' :: rest => (parseUnsigned rest).map Neg.neg
  | _ => parseUnsigned cs

/-- A character of the `\s` class (Python whitespace). -/
def isSpaceChar (c : Char) : Bool :=
  c = ' ' || c = '\t' || c = '\n' || c = '\r' ||
  c = Char.ofNat 11 || c = Char.ofNat 12

/-- Strip leading and trailing whitespace. -/
def pyTrim (cs : List Char) : List Char :=
  ((cs.dropWhile isSpaceChar).reverse.dropWhile isSpaceChar).reverse

/-- Python `float(x)` on a value: numbers and bools convert, strings are
parsed as decimal literals (whitespace-stripped), everything else raises
(`none`). -/
def pyFloat : JVal → Option ℚ
  | JVal.num q => some q
  | JVal.bool b => some (if b then 1 else 0)
  | JVal.str s => parseSigned (pyTrim s.data)
  | _ => none

/-- `_safe_float_convert` from `negotiation_utils.py`: `float(value)` with
fallback `0.0` on `None` or conversion errors. -/
def safeFloatConvert (v : JVal) : ℚ :=
  (pyFloat v).getD 0

/-- Replace every occurrence of the character `a` by `b`. -/
def charSwap (a b : Char) (cs : List Char) : List Char :=
  cs.map (fun c => if c = a then b else c)

/-- Remove every occurrence of the character `a`. -/
def removeChar (a : Char) (s : String) : String :=
  String.mk (s.data.filter (fun c => c ≠ a))

/-- Attempt to match the regex `[-+]?\d*\.?\d+` anchored at the start of
`cs`; returns the matched number (greedy, with the regex's backtracking
behaviour: a trailing lone dot is not consumed). -/
def matchNumAt (cs : List Char) : Option ℚ :=
  let core : List Char → Option ℚ := fun body =>
    let intPart := body.takeWhile Char.isDigit
    let rest := body.dropWhile Char.isDigit
    match rest with
    | '.' :: tl =>
        let frac := tl.takeWhile Char.isDigit
        if frac.isEmpty then
          if intPart.isEmpty then none else some (decimalVal intPart [])
        else
          some (decimalVal intPart frac)
    | _ => if intPart.isEmpty then none else some (decimalVal intPart [])
  match cs with
  | '+' :: rest => core rest
  | '-' :: rest => (core rest).map Neg.neg
  | _ => core cs

/-- Leftmost match of `[-+]?\d*\.?\d+` in the character list (the
semantics of `re.search`). -/
def searchNum : List Char → Option ℚ
  | [] => none
  | c :: rest =>
      match matchNumAt (c :: rest) with
      | some q => some q
      | none => searchNum rest

/-- `_extract_numeric` from `negotiation_utils.py`: numbers pass through,
strings have commas replaced by dots and the first decimal number
extracted; anything else yields `none`. -/
def extractNumeric : JVal → Option ℚ
  | JVal.num q => some q
  | JVal.str s => searchNum (charSwap ',' '.' s.data)
  | JVal.bool b => some (if b then 1 else 0)
  | _ => none

/-- CPython `round(float)` to an integer: round half to even.  Written
in integer arithmetic on the numerator and denominator so that it is
kernel-computable: `f` is `⌊q⌋` and `t` compared with the denominator
decides whether the fractional part is below, above or exactly `1/2`. -/
def pyRound (q : ℚ) : ℤ :=
  let f := q.num / (q.den : ℤ)
  let t := 2 * (q.num - f * (q.den : ℤ))
  if t < (q.den : ℤ) then f
  else if (q.den : ℤ) < t then f + 1
  else if f % 2 = 0 then f else f + 1

/-- ASCII lowercase, plus the German uppercase umlauts the source
lowercases before replacing. -/
def pyLowerChar (c : Char) : Char :=
  if c = 'Ä' then 'ä' else if c = 'Ö' then 'ö' else if c = 'Ü' then 'ü'
  else c.toLower

/-- Python `str.lower()` (ASCII + German umlauts). -/
def lowerStr (s : String) : String :=
  String.mk (s.data.map pyLowerChar)

/-- Python `str.upper()` (ASCII). -/
def upperStr (s : String) : String :=
  String.mk (s.data.map Char.toUpper)

/-! ## Slugification and product key similarity -/

/-- A character of the class `[\s_-]` collapsed by slugification. -/
def isSepChar (c : Char) : Bool :=
  isSpaceChar c || c = '_' || c = '-'

/-- `re.sub(r"[\s_-]+", "_", ·)`: collapse every run of separators into a
single underscore. -/
def collapseSeps (cs : List Char) : List Char :=
  let st := cs.foldl
    (fun (st : List Char × Bool) c =>
      if isSepChar c then (st.1, true)
      else (c :: (if st.2 then '_' :: st.1 else st.1), false))
    ([], false)
  (if st.2 then '_' :: st.1 else st.1).reverse

/-- Python `str.strip("_")`. -/
def stripUnderscores (cs : List Char) : List Char :=
  ((cs.dropWhile (· = '_')).reverse.dropWhile (· = '_')).reverse

/-- `_slugify_product_key`: lower-case, expand German umlauts/ß, drop
characters outside `[a-z0-9\s_-]`, collapse separator runs to `_`, and
strip leading/trailing underscores.  (The `unicodedata.NFD` +
combining-mark-stripping step is the identity on the resulting ASCII
strings and is omitted.) -/
def slugifyProductKey (s : String) : String :=
  let lowered := s.data.map pyLowerChar
  let replaced := lowered.flatMap (fun c =>
    if c = 'ä' then ['a', 'e'] else if c = 'ö' then ['o', 'e']
    else if c = 'ü' then ['u', 'e'] else if c = 'ß' then ['s', 's']
    else [c])
  let kept := replaced.filter
    (fun c => ('a' ≤ c && c ≤ 'z') || c.isDigit || isSpaceChar c ||
      c = '_' || c = '-')
  String.mk (stripUnderscores (collapseSeps kept))

/-- `needle` occurs as a contiguous substring of `hay` (Python `in`). -/
def listContains (hay needle : List Char) : Bool :=
  hay.tails.any (fun t => needle.isPrefixOf t)

/-- `_is_similar_product_key` with the default `min_overlap = 6`. -/
def isSimilarProductKey (key1 key2 : String) : Bool :=
  if key1 = "" || key2 = "" then false
  else
    let n1 := lowerStr (removeChar '_' key1)
    let n2 := lowerStr (removeChar '_' key2)
    if n1 == n2 then true
    else if 6 ≤ n1.length && 6 ≤ n2.length && n1.take 6 == n2.take 6 then true
    else if 6 ≤ n1.length && 6 ≤ n2.length &&
        (listContains n2.data n1.data || listContains n1.data n2.data) then true
    else if 0 < n1.length && 0 < n2.length then
      let maxLen := max n1.length n2.length
      let minLen := min n1.length n2.length
      if 3 < maxLen - minLen then false
      else
        let hits := ((n1.data.zip n2.data).filter (fun p => p.1 == p.2)).length
        decide ((7 : ℚ) / 10 ≤ (hits : ℚ) / (maxLen : ℚ))
    else false

/-! ## The offer normalizer (`normalize_model_output`) -/

/-- One entry of the normalizer's dimension lookup (`dim_index`): the
bounds already pushed through `_safe_float_convert` and the raw unit. -/
structure DimMeta where
  min : ℚ
  max : ℚ
  unit : JVal

/-- The `dim_index` entry built for one dimension dict. -/
def mkDimEntry (d : Obj) : DimMeta :=
  { min := safeFloatConvert (pyGetD d "minValue" (pyGet d "min"))
    max := safeFloatConvert (pyGetD d "maxValue" (pyGet d "max"))
    unit := pyOr (pyGetD d "unit" (JVal.str "")) (JVal.str "") }

/-- Build `dim_index` over the dimension list.  A non-dict entry raises
(`d.get`).  Entries with a falsy name (None, False, 0, empty string,
empty list, empty dict) fail the `if not name: continue` guard and are
skipped.  A truthy list- or dict-valued name reaches `dim_index[name]`
and raises `TypeError: unhashable type`.  Truthy numeric and boolean
names are hashable and are indexed under non-string keys in Python,
unreachable by the (string-keyed) lookups below, so they are skipped. -/
def dimIndexAux (acc : List (String × DimMeta)) :
    List JVal → Except String (List (String × DimMeta))
  | [] => Except.ok acc
  | d :: rest =>
      match d with
      | JVal.obj fs =>
          match pyGet fs "name" with
          | JVal.str s =>
              if s ≠ "" then dimIndexAux (insertKey acc s (mkDimEntry fs)) rest
              else dimIndexAux acc rest
          | JVal.arr xs =>
              if xs.isEmpty then dimIndexAux acc rest
              else Except.error "TypeError"
          | JVal.obj nfs =>
              if nfs.isEmpty then dimIndexAux acc rest
              else Except.error "TypeError"
          | _ => dimIndexAux acc rest
      | _ => Except.error "AttributeError"

/-- `dim_index` for `normalize_model_output`. -/
def dimIndexE (dimensions : List JVal) : Except String (List (String × DimMeta)) :=
  dimIndexAux [] dimensions

/-- `product.get('attrs') if isinstance(product.get('attrs'), dict) else {}`. -/
def attrsOf (p : Obj) : Obj :=
  match getOpt p "attrs" with
  | some (JVal.obj a) => a
  | _ => []

/-- Build `product_key_map`.  A non-dict product raises (`product.get`);
a truthy non-string product name raises inside `_slugify_product_key`
(`.lower()`); a truthy non-string explicit `product_key` raises at
`correct_key.replace`. -/
def productKeyMapAux (acc : List (String × String)) :
    List JVal → Except String (List (String × String))
  | [] => Except.ok acc
  | p :: rest =>
      match p with
      | JVal.obj fs =>
          let attrs : Obj := attrsOf fs
          let name := pyOr (pyGet fs "name")
            (pyOr (pyGet attrs "name") (pyGet fs "produktName"))
          if truthy name then
            match name with
            | JVal.str ns =>
                let explicitKey := pyOr (pyGet fs "product_key") (pyGet attrs "product_key")
                let ckE : Except String String :=
                  if truthy explicitKey then
                    match explicitKey with
                    | JVal.str es => Except.ok es
                    | _ => Except.error "AttributeError"
                  else Except.ok (slugifyProductKey ns)
                match ckE with
                | Except.ok ck =>
                    let m1 := insertKey acc ck ck
                    let m2 := insertKey m1 (removeChar '_' ck) ck
                    let m3 := insertKey m2 (lowerStr ck) ck
                    let m4 := insertKey m3 (removeChar ' ' (lowerStr ns)) ck
                    productKeyMapAux m4 rest
                | Except.error e => Except.error e
            | _ => Except.error "AttributeError"
          else productKeyMapAux acc rest
      | _ => Except.error "AttributeError"

/-- `product_key_map` for `normalize_model_output` (empty when `products`
is falsy). -/
def productKeyMapE (products : List JVal) : Except String (List (String × String)) :=
  if products.isEmpty then Except.ok [] else productKeyMapAux [] products

/-- The distinct values of `product_key_map`, in first-occurrence order
(Python iterates `set(product_key_map.values())`, whose order is
implementation-defined; the `break` takes the first similarity hit). -/
def mapValues (m : List (String × String)) : List String :=
  m.foldl (fun acc p => if acc.contains p.2 then acc else acc ++ [p.2]) []

/-- The `[PRODUCT_KEY_FIX]` key correction applied to one raw offer key. -/
def correctKey (useMap : Bool) (pkMap : List (String × String)) (key : String) :
    String :=
  if useMap && !pkMap.isEmpty then
    match lookupStr pkMap key with
    | some ck => ck
    | none =>
        let nk := slugifyProductKey key
        match lookupStr pkMap nk with
        | some ck => ck
        | none =>
            match (mapValues pkMap).find? (fun ck => isSimilarProductKey nk ck) with
            | some ck => ck
            | none => key
  else key

/-- `(meta.get("unit") or "").lower()`: raises on a truthy non-string
unit. -/
def unitStrE (u : JVal) : Except String String :=
  if truthy u then
    match u with
    | JVal.str s => Except.ok (lowerStr s)
    | _ => Except.error "AttributeError"
  else Except.ok ""

/-- Units whose values are rounded to integers. -/
def roundingUnits : List String :=
  ["usd", "eur", "gbp", "currency", "$", "€", "£", "days", "months",
   "years", "weeks"]

/-- Whether the (lowered) unit string triggers integer rounding. -/
def unitRounds (ul : String) : Bool :=
  roundingUnits.contains ul || ul.data.contains '%'

/-- Clamp a coerced value to the dimension bounds and apply the unit
rounding (`ul` is the lowered unit string). -/
def finalizeVal (m : DimMeta) (ul : String) (v : ℚ) : ℚ :=
  let clamped := min (max v m.min) m.max
  if unitRounds ul then ((pyRound clamped : ℤ) : ℚ) else clamped

/-- The first dimension dict whose `name` equals `k`
(`next((x for x in dimensions if x.get("name") == corrected_key), None)`;
non-dict entries are unreachable here because `dim_index` construction
already raised on them). -/
def findDimByName (dimensions : List JVal) (k : String) : Option Obj :=
  dimensions.findSome? (fun d =>
    match d with
    | JVal.obj fs =>
        match pyGet fs "name" with
        | JVal.str s => if s == k then some fs else none
        | _ => none
    | _ => none)

/-- The raw `targetValue` of the first dimension named `k` (`None` when
there is no such dimension or no such field). -/
def targetValueOf (dimensions : List JVal) (k : String) : JVal :=
  ((findDimByName dimensions k).map (fun fs => pyGet fs "targetValue")).getD JVal.null

/-- The per-key normalization loop of `normalize_model_output`: key
correction, numeric coercion, target fallback, clamping and rounding. -/
def normDimsAux (dimensions : List JVal) (dimIdx : List (String × DimMeta))
    (useMap : Bool) (pkMap : List (String × String)) (acc : List (String × ℚ)) :
    List (String × JVal) → Except String (List (String × ℚ))
  | [] => Except.ok acc
  | (key, raw) :: rest =>
      let ck := correctKey useMap pkMap key
      let val0 := extractNumeric raw
      let meta := lookupStr dimIdx ck
      let val1 : Option ℚ :=
        match val0, meta with
        | none, some _ =>
            let target := targetValueOf dimensions ck
            if isNullB target then none else some (safeFloatConvert target)
        | v, _ => v
      match val1 with
      | none => normDimsAux dimensions dimIdx useMap pkMap acc rest
      | some v0 =>
          match meta with
          | some m =>
              match unitStrE m.unit with
              | Except.ok ul =>
                  normDimsAux dimensions dimIdx useMap pkMap
                    (insertKey acc ck (finalizeVal m ul v0)) rest
              | Except.error e => Except.error e
          | none =>
              normDimsAux dimensions dimIdx useMap pkMap
                (insertKey acc ck v0) rest

/-- The allowed action set. -/
def allowedActions : List String :=
  ["continue", "accept", "terminate", "walk_away", "pause"]

/-- The structured content of the dict returned by
`normalize_model_output` (the repaired action, offer values and clamped
scalars; unread pass-through fields are not tracked). -/
structure NormResult where
  action : String
  dimensionValues : List (String × ℚ)
  confidence : ℚ
  batna : ℚ
  walkAway : ℚ
deriving DecidableEq, Repr

/-- Clamp to `[0, 1]`. -/
def clamp01 (q : ℚ) : ℚ :=
  max 0 (min 1 q)

/-- `resp = response or {}` followed by the first `resp.get(...)`: a
truthy non-dict response raises. -/
def respFieldsE (response : JVal) : Except String Obj :=
  match (if truthy response then response else JVal.obj []) with
  | JVal.obj fs => Except.ok fs
  | _ => Except.error "AttributeError"

/-- `offer = resp.get("offer") or {}` followed by `offer.get(...)`: a
truthy non-dict offer raises. -/
def offerFieldsE (respF : Obj) : Except String Obj :=
  match pyOr (pyGet respF "offer") (JVal.obj []) with
  | JVal.obj fs => Except.ok fs
  | _ => Except.error "AttributeError"

/-- `dim_vals = offer.get("dimension_values") or {}` followed by
`dim_vals.items()`: a truthy non-dict value raises. -/
def dimValsE (offerF : Obj) : Except String Obj :=
  match pyOr (pyGet offerF "dimension_values") (JVal.obj []) with
  | JVal.obj fs => Except.ok fs
  | _ => Except.error "AttributeError"

/-- `(resp.get("action") or "continue").lower()` with the allowed-set
check: a truthy non-string action raises at `.lower()`. -/
def actionE (respF : Obj) : Except String String := do
  let actionV := pyGet respF "action"
  let actionRaw ←
    if truthy actionV then
      match actionV with
      | JVal.str s => Except.ok s
      | _ => Except.error "AttributeError"
    else Except.ok "continue"
  let actionLow := lowerStr actionRaw
  Except.ok (if allowedActions.contains actionLow then actionLow else "continue")

/-- `normalize_model_output(response, dimensions, products)` from
`negotiation_utils.py`, with every Python raise point modelled as an
`Except.error` (the steps follow the source order: offer and
dimension-value extraction, `dim_index`, `product_key_map`, the per-key
normalization loop, action repair, scalar clamps). -/
def normalizeModelOutput (response : JVal) (dimensions : List JVal)
    (products : List JVal) : Except String NormResult := do
  let respF ← respFieldsE response
  let offerF ← offerFieldsE respF
  let dimVals ← dimValsE offerF
  let dimIdx ← dimIndexE dimensions
  let pkMap ← productKeyMapE products
  let normalizedDims ← normDimsAux dimensions dimIdx (!products.isEmpty) pkMap [] dimVals
  let action ← actionE respF
  let confidence := clamp01 ((extractNumeric (pyGet offerF "confidence")).getD (1/2))
  let batna := clamp01 ((extractNumeric (pyGet respF "batna_assessment")).getD (1/2))
  let walkAway := clamp01 ((extractNumeric (pyGet respF "walk_away_threshold")).getD (3/10))
  Except.ok
    { action := action
      dimensionValues := normalizedDims
      confidence := confidence
      batna := batna
      walkAway := walkAway }

/-! ## The convergence detector (`analyze_convergence`) -/

/-- `NegotiationConfig.CONVERGENCE_THRESHOLD`. -/
def convergenceThreshold : ℚ := 1/10

/-- `NegotiationConfig.MIN_CONVERGENCE_RATIO`. -/
def minConvergenceRatio : ℚ := 1/2

/-- `NegotiationConfig.ABSOLUTE_MAX_ROUNDS`. -/
def absoluteMaxRounds : ℕ := 20

/-- One iteration of the `analyze_convergence` loop, accumulating
`(convergence_count, comparable_count)`. -/
def convStep (previous : Obj) (acc : ℕ × ℕ) (kv : String × JVal) : ℕ × ℕ :=
  if hasKey previous kv.1 then
    match pyFloat kv.2 with
    | none => acc
    | some c =>
        match pyFloat (pyGet previous kv.1) with
        | none => acc
        | some p =>
            (acc.1 + (if |c - p| < |p * convergenceThreshold| then 1 else 0),
             acc.2 + 1)
  else acc

/-- `analyze_convergence(current_offer, previous_offer)` from
`negotiation_utils.py`. -/
def analyzeConvergence (currentOffer previousOffer : Obj) : Bool :=
  if currentOffer.isEmpty || previousOffer.isEmpty then false
  else
    let counts := currentOffer.foldl (convStep previousOffer) (0, 0)
    if counts.2 = 0 then false
    else decide (minConvergenceRatio ≤ (counts.1 : ℚ) / (counts.2 : ℚ))

/-- A dimension of `current` is comparable: the key is shared and both
values convert to numbers. -/
def comparableB (previous : Obj) (kv : String × JVal) : Bool :=
  hasKey previous kv.1 && (pyFloat kv.2).isSome &&
    (pyFloat (pyGet previous kv.1)).isSome

/-- A comparable dimension that moved by less than 10% of the previous
value. -/
def convergedB (previous : Obj) (kv : String × JVal) : Bool :=
  comparableB previous kv &&
    match pyFloat kv.2, pyFloat (pyGet previous kv.1) with
    | some c, some p => decide (|c - p| < |p| * convergenceThreshold)
    | _, _ => false

/-- Number of comparable dimensions. -/
def comparableCount (current previous : Obj) : ℕ :=
  current.countP (comparableB previous)

/-- Number of converged dimensions. -/
def convergedCount (current previous : Obj) : ℕ :=
  current.countP (convergedB previous)

/-! ## The outcome classifier (`_determine_outcome`) -/

/-- Session outcomes (`NegotiationOutcome`); `ERROR` doubles as the
non-terminal sentinel inside the round loop. -/
inductive Outcome where
  | DEAL_ACCEPTED
  | TERMINATED
  | WALK_AWAY
  | PAUSED
  | MAX_ROUNDS_REACHED
  | ERROR
deriving DecidableEq, Repr

/-- `_determine_outcome(action, response_data)`: the scalar fields are
passed as the (numeric) values of `batna_assessment` and
`walk_away_threshold`, `none` when the key is absent (defaults 0.5 and
0.3 as in `response_data.get`). -/
def determineOutcome (action : String) (batna walkAway : Option ℚ) : Outcome :=
  if action == "accept" then Outcome.DEAL_ACCEPTED
  else if action == "terminate" then Outcome.TERMINATED
  else if action == "walk_away" then Outcome.WALK_AWAY
  else if action == "pause" then Outcome.PAUSED
  else if batna.getD (1/2) < walkAway.getD (3/10) then Outcome.WALK_AWAY
  else Outcome.ERROR

/-! ## The perspective resolver (`_calculate_opponent_target_price`,
`_build_pricing_strings`) -/

/-- `MAX_PRICE_DEVIATION` from `run_production_negotiation.py`. -/
def maxPriceDeviation : ℚ := 3/10

/-- Extraction of the scalar distance from the `counterpartDistance`
input: for a dict, `float(d.get('gesamt', 0))`, falling back to the
first value when that is zero and the dict is non-empty (both `float`
calls may raise); otherwise `float(x or 0)` with errors swallowed to
`0.0`. -/
def extractDistance : JVal → Except String ℚ
  | JVal.obj fields => do
      let d ←
        match pyFloat (pyGetD fields "gesamt" (JVal.num 0)) with
        | some q => Except.ok q
        | none => Except.error "ValueError"
      if d = 0 && !fields.isEmpty then
        match pyFloat (((fields.head?).map (fun p => p.2)).getD (JVal.num 0)) with
        | some q => Except.ok q
        | none => Except.error "ValueError"
      else Except.ok d
  | v =>
      Except.ok ((pyFloat (if truthy v then v else JVal.num 0)).getD 0)

/-- `_calculate_opponent_target_price(own_target_price,
counterpart_distance_data, opponent_role, max_deviation)`. -/
def calculateOpponentTargetPrice (ownTargetPrice : ℚ) (distanceData : JVal)
    (opponentRole : String) (maxDeviation : ℚ) : Except String ℚ := do
  let d0 ← extractDistance distanceData
  let distance := max 0 (min d0 100)
  let deviationFactor := distance / 100 * maxDeviation
  if upperStr opponentRole == "BUYER" then
    Except.ok (ownTargetPrice * (1 - deviationFactor))
  else if upperStr opponentRole == "SELLER" then
    Except.ok (ownTargetPrice * (1 + deviationFactor))
  else
    Except.ok ownTargetPrice

/-- Python `str(v)` as used in the prompt f-strings (rendering of
non-integer numbers and containers is schematic; the engine only
formats names and units this way). -/
def pyStr : JVal → String
  | JVal.null => "None"
  | JVal.bool true => "True"
  | JVal.bool false => "False"
  | JVal.str s => s
  | JVal.num q =>
      if q.den = 1 then toString q.num
      else toString q.num ++ "/" ++ toString q.den
  | JVal.arr _ => "[...]"
  | JVal.obj _ => "\x7b...\x7d"

/-- Group the decimal digits of `s` in threes with `.` separators (the
result of swapping `,` and `.` in `{:,}` output). -/
def groupThousands (s : String) : String :=
  let out := s.data.reverse.enum.foldl
    (fun acc (p : ℕ × Char) =>
      if p.1 ≠ 0 && p.1 % 3 = 0 then p.2 :: '.' :: acc else p.2 :: acc)
    []
  String.mk out

/-- Two-digit cent rendering. -/
def pad2 (n : ℕ) : String :=
  if n < 10 then "0" ++ toString n else toString n

/-- `f"€{numeric:,.2f}"` with `.`/`,` swapped, as in `_format_price`.
(`q·100` is written `Rat.divInt (q.num * 100) q.den`, the same rational,
so that the rendering is kernel-computable.) -/
def formatMoney (q : ℚ) : String :=
  let r := pyRound (Rat.divInt (q.num * 100) (q.den : ℤ))
  let a := r.natAbs
  (if r < 0 then "-" else "") ++ groupThousands (toString (a / 100)) ++ "," ++
    pad2 (a % 100)

/-- `_format_price(value)`. -/
def formatPrice (value : JVal) : String :=
  match value with
  | JVal.null => "–"
  | v =>
      match pyFloat v with
      | some q => "€" ++ formatMoney q
      | none => pyStr v

/-- `_format_number(value)`. -/
def formatNumber (value : JVal) : String :=
  match pyFloat value with
  | some q =>
      let r := pyRound q
      (if r < 0 then "-" else "") ++ groupThousands (toString r.natAbs)
  | none =>
      match value with
      | JVal.null => "–"
      | v => pyStr v

/-- `_extract_product_name(product)`. -/
def extractProductName (p : Obj) : JVal :=
  pyOr (pyGet p "name")
    (pyOr (pyGet (attrsOf p) "name")
      (pyOr (pyGet p "produktName") (JVal.str "Unbekanntes Produkt")))

/-- `v not in (None, '')`. -/
def notNoneOrEmptyStr (v : JVal) : Bool :=
  match v with
  | JVal.null => false
  | JVal.str s => s ≠ ""
  | _ => true

/-- `_extract_product_field(product, keys)` with the default `None`
fallback. -/
def extractProductField (p : Obj) : List String → JVal
  | [] => JVal.null
  | k :: ks =>
      if hasKey p k && notNoneOrEmptyStr (pyGet p k) then pyGet p k
      else if !(attrsOf p).isEmpty && hasKey (attrsOf p) k &&
          notNoneOrEmptyStr (pyGet (attrsOf p) k) then pyGet (attrsOf p) k
      else extractProductField p ks

/-- The four key lists used by `_build_pricing_strings`. -/
def targetPriceKeys : List String := ["zielPreis", "targetPrice", "priceTarget"]

/-- Keys for the minimum guardrail price. -/
def minPriceKeys : List String := ["minPreis", "minPrice", "priceFloor"]

/-- Keys for the maximum guardrail price. -/
def maxPriceKeys : List String :=
  ["maxPreis", "maxPrice", "priceCeiling", "minMaxPreis"]

/-- Keys for the estimated volume. -/
def volumeKeys : List String :=
  ["geschätztesVolumen", "estimatedVolume", "volume"]

/-- The four line accumulators of `_build_pricing_strings`. -/
structure PricingLines where
  names : List String
  ziel : List String
  maxs : List String
  volumes : List String
deriving DecidableEq, Repr

/-- The distance-adjusted target price shown to the opponent agent
(`target_price` after the `use_self_prompt=False` adjustment block);
raises where the Python block raises (`context.get` on a non-dict,
`float(target_price)` on a non-numeric value). -/
def adjustedTargetPrice (targetPrice0 : JVal) (role : String)
    (useSelfPrompt : Bool) (context : JVal) : Except String JVal :=
  if !useSelfPrompt && truthy targetPrice0 && truthy context then
    match context with
    | JVal.obj ctxF =>
        let dd := pyGet ctxF "counterpartDistance"
        if truthy dd then
          match pyFloat targetPrice0 with
          | some tq =>
              (calculateOpponentTargetPrice tq dd role maxPriceDeviation).map JVal.num
          | none => Except.error "ValueError"
        else Except.ok targetPrice0
    | _ => Except.error "AttributeError"
  else Except.ok targetPrice0

/-- The per-product loop of `_build_pricing_strings`. -/
def pricingLinesAux (role : String) (useSelfPrompt : Bool) (context : JVal)
    (acc : PricingLines) : List JVal → Except String PricingLines
  | [] => Except.ok acc
  | p :: rest =>
      match p with
      | JVal.obj fs => do
          let name := pyStr (extractProductName fs)
          let targetPrice0 := extractProductField fs targetPriceKeys
          let minPrice := extractProductField fs minPriceKeys
          let maxPrice := extractProductField fs maxPriceKeys
          let estVolume := extractProductField fs volumeKeys
          let targetPrice ← adjustedTargetPrice targetPrice0 role useSelfPrompt context
          let acc' : PricingLines :=
            { names := acc.names ++ ["- " ++ name]
              ziel := acc.ziel ++
                ["- " ++ name ++ ": Zielpreis " ++ formatPrice targetPrice]
              maxs :=
                if useSelfPrompt then
                  if role == "BUYER" then
                    acc.maxs ++ ["- " ++ name ++ ": Maximalpreis " ++
                      formatPrice (pyOr maxPrice targetPrice)]
                  else
                    acc.maxs ++ ["- " ++ name ++ ": Minimalpreis " ++
                      formatPrice (pyOr minPrice targetPrice)]
                else acc.maxs
              volumes := acc.volumes ++ ["- " ++ name ++
                ": Erwartetes Volumen " ++ formatNumber estVolume ++ " Einheiten"] }
          pricingLinesAux role useSelfPrompt context acc' rest
      | _ => Except.error "AttributeError"

/-- The output of `_build_pricing_strings`. -/
structure PricingStrings where
  names : String
  zielpreise : String
  preisgrenzen : String
  volumes : String
deriving DecidableEq, Repr

/-- `_build_pricing_strings(products, role, use_self_prompt, context)`:
for the opponent view (`use_self_prompt=False`) the guardrail block is
always withheld (`guardrails_withheld` is never set to `False` in the
source). -/
def buildPricingStrings (products : List JVal) (role : String)
    (useSelfPrompt : Bool) (context : JVal) : Except String PricingStrings :=
  if products.isEmpty then
    Except.ok
      { names := "Keine Produkte definiert."
        zielpreise := "Keine Zielpreise vorhanden."
        preisgrenzen := "Keine Preisgrenzen vorhanden."
        volumes := "Keine Volumenangaben vorhanden." }
  else do
    let lines ← pricingLinesAux role useSelfPrompt context
      { names := [], ziel := [], maxs := [], volumes := [] } products
    let maxText :=
      if !useSelfPrompt then "Keine Min/Max-Werte verfügbar"
      else if !lines.maxs.isEmpty then String.intercalate "\n" lines.maxs
      else "Keine Preisgrenzen vorhanden."
    Except.ok
      { names := String.intercalate "\n" lines.names
        zielpreise := String.intercalate "\n" lines.ziel
        preisgrenzen := maxText
        volumes := String.intercalate "\n" lines.volumes }

/-! ## Orchestrator pieces (`_should_extend_negotiation`,
`_finalize_results`) -/

/-- One stored turn: the acting role and the (dict) response appended to
`results` by the round loop. -/
structure TurnRecord where
  role : String
  response : Obj

/-- `entry["response"].get("offer", {}).get("dimension_values", {})` as
consumed by `_should_extend_negotiation`.  A present non-dict `offer`
raises at the second `.get`; a falsy non-dict `dimension_values` makes
`analyze_convergence` return `False` through its emptiness guard (hence
`[]` here), while a truthy non-dict one raises inside the detector. -/
def turnOfferDims (t : TurnRecord) : Except String Obj :=
  match pyGetD t.response "offer" (JVal.obj []) with
  | JVal.obj ofs =>
      match pyGetD ofs "dimension_values" (JVal.obj []) with
      | JVal.obj ds => Except.ok ds
      | v => if truthy v then Except.error "TypeError" else Except.ok []
  | _ => Except.error "AttributeError"

/-- `_should_extend_negotiation(exchange_num, max_rounds, results)`. -/
def shouldExtendNegotiation (exchangeNum maxRounds : ℕ)
    (results : List TurnRecord) : Except String Bool :=
  if exchangeNum < maxRounds || results.length < 2 ||
      absoluteMaxRounds ≤ exchangeNum then
    Except.ok false
  else
    match results.reverse with
    | t1 :: t2 :: _ => do
        let lastOffer ← turnOfferDims t1
        let prevOffer ← turnOfferDims t2
        Except.ok (analyzeConvergence lastOffer prevOffer)
    | _ => Except.ok false

/-- The round-budget update performed after a non-terminal turn
(`max_rounds = min(exchange_num + 3, ABSOLUTE_MAX_ROUNDS)` when
`_should_extend_negotiation` fires, unchanged otherwise). -/
def updateMaxRounds (exchangeNum maxRounds : ℕ) (results : List TurnRecord) :
    Except String ℕ := do
  let ext ← shouldExtendNegotiation exchangeNum maxRounds results
  Except.ok (if ext then min (exchangeNum + 3) absoluteMaxRounds else maxRounds)

/-- The dimension values of a turn's offer, empty on extraction failure
(used only by the spec-side condition below). -/
def turnOfferDimsD (t : TurnRecord) : Obj :=
  ((turnOfferDims t).toOption).getD []

/-- Modelled from the spec (§4.5): extend exactly when `roundIndex ≥
roundBudget`, there are ≥ 2 prior turns by the same (acting) role,
`roundIndex < absoluteRoundBudget`, and the convergence detector reports
convergence between this role's last two offers.  This is the claim's
condition, stated for comparison with `shouldExtendNegotiation`. -/
def specExtendCondition (exchangeNum maxRounds : ℕ)
    (results : List TurnRecord) : Bool :=
  match results.reverse with
  | [] => false
  | acting :: _ =>
      let sameRole := results.filter (fun t => t.role == acting.role)
      maxRounds ≤ exchangeNum && exchangeNum < absoluteMaxRounds &&
        2 ≤ sameRole.length &&
        (match sameRole.reverse with
         | a :: b :: _ => analyzeConvergence (turnOfferDimsD a) (turnOfferDimsD b)
         | _ => false)

/-- `prev_offer and prev_offer.get("dimension_values")` (and the same
test on the accepting turn's own offer): the offer is a dict with truthy
dimension values.  Raises when the offer is a truthy non-dict. -/
def offerNonEmptyE (offer : JVal) : Except String Bool :=
  if !truthy offer then Except.ok false
  else
    match offer with
    | JVal.obj ofs => Except.ok (truthy (pyGet ofs "dimension_values"))
    | _ => Except.error "AttributeError"

/-- The final-offer selection of `_finalize_results`: the last turn's
offer, replaced by the previous turn's offer when the deal was accepted
on an offer with no dimension values and the previous offer is
non-empty. -/
def determineFinalOffer (outcome : Outcome) (results : List TurnRecord) :
    Except String JVal :=
  match results.reverse with
  | [] => Except.ok JVal.null
  | lastT :: restRev => do
      let finalOffer := pyGet lastT.response "offer"
      let lastNonEmpty ← offerNonEmptyE finalOffer
      if outcome = Outcome.DEAL_ACCEPTED && !lastNonEmpty &&
          2 ≤ results.length then
        match restRev with
        | prevT :: _ => do
            let prevOffer := pyGet prevT.response "offer"
            let prevNonEmpty ← offerNonEmptyE prevOffer
            if prevNonEmpty then Except.ok prevOffer else Except.ok finalOffer
        | [] => Except.ok finalOffer
      else Except.ok finalOffer

/-! ## Lemmas about the convergence detector -/

lemma convStep_eq (prev : Obj) (acc : ℕ × ℕ) (kv : String × JVal) :
    convStep prev acc kv =
      (acc.1 + (if convergedB prev kv then 1 else 0),
       acc.2 + (if comparableB prev kv then 1 else 0)) := by
  cases hk : hasKey prev kv.1 with
  | false => simp [convStep, convergedB, comparableB, hk]
  | true =>
    cases hc : pyFloat kv.2 with
    | none => simp [convStep, convergedB, comparableB, hk, hc]
    | some c =>
      cases hp : pyFloat (pyGet prev kv.1) with
      | none => simp [convStep, convergedB, comparableB, hk, hc, hp]
      | some p =>
        have habs : |p * convergenceThreshold| = |p| * convergenceThreshold := by
          rw [abs_mul]
          norm_num [convergenceThreshold]
        simp [convStep, convergedB, comparableB, hk, hc, hp, habs]

lemma convCounts_foldl (prev : Obj) :
    ∀ (l : List (String × JVal)) (a b : ℕ),
      l.foldl (convStep prev) (a, b) =
        (a + l.countP (convergedB prev), b + l.countP (comparableB prev))
  | [], a, b => by simp
  | kv :: t, a, b => by
      rw [List.foldl_cons, convStep_eq, convCounts_foldl prev t]
      simp only [List.countP_cons]
      cases hcv : convergedB prev kv <;> cases hcm : comparableB prev kv <;>
        simp [hcv, hcm] <;> omega

lemma comparableCount_nil_prev (cur : Obj) : comparableCount cur [] = 0 := by
  unfold comparableCount
  rw [List.countP_eq_zero]
  intro kv _
  simp [comparableB, hasKey, getOpt]

/-- C5: `analyze_convergence` returns true iff there is at least one
comparable (shared-key, numerically convertible) dimension and the
fraction of comparable dimensions that moved by less than
`|previous| × 0.10` is at least `0.50`; in particular it returns false
for empty offers and for offers with no comparable dimension, and
non-numeric values are skipped (they are simply not comparable). -/
theorem c5_convergence_detector (cur prev : Obj) :
    analyzeConvergence cur prev = true ↔
      0 < comparableCount cur prev ∧
        (1/2 : ℚ) ≤ (convergedCount cur prev : ℚ) / (comparableCount cur prev : ℚ) := by
  unfold analyzeConvergence
  rcases hc : cur with _ | ⟨kv, curt⟩
  · simp [comparableCount]
  rcases hp : prev with _ | ⟨pv, prevt⟩
  · simp [comparableCount_nil_prev]
  rw [← hc, ← hp]
  have hfold := convCounts_foldl prev cur 0 0
  have hcur : cur.isEmpty = false := by rw [hc]; rfl
  have hprev : prev.isEmpty = false := by rw [hp]; rfl
  simp only [hcur, hprev, Bool.or_self, Bool.false_eq_true, if_false, hfold,
    Nat.zero_add]
  by_cases h0 : cur.countP (comparableB prev) = 0
  · simp [h0, comparableCount, convergedCount]
  · rw [if_neg h0]
    simp only [decide_eq_true_eq, comparableCount, convergedCount,
      minConvergenceRatio]
    exact ⟨fun h => ⟨Nat.pos_of_ne_zero h0, h⟩, fun h => h.2⟩

/-! ## The outcome classifier -/

/-- C6: the outcome classifier is a pure function of the single turn's
normalized output: `accept ↦ DEAL_ACCEPTED`, `terminate ↦ TERMINATED`,
`walk_away ↦ WALK_AWAY`, `pause ↦ PAUSED`, and any other action yields
`WALK_AWAY` exactly when `batna_assessment < walk_away_threshold` and
the non-terminal `ERROR` sentinel otherwise. -/
theorem c6_outcome_classifier (a : String) (b w : ℚ) (ob ow : Option ℚ)
    (ha1 : a ≠ "accept") (ha2 : a ≠ "terminate") (ha3 : a ≠ "walk_away")
    (ha4 : a ≠ "pause") :
    determineOutcome "accept" ob ow = Outcome.DEAL_ACCEPTED ∧
    determineOutcome "terminate" ob ow = Outcome.TERMINATED ∧
    determineOutcome "walk_away" ob ow = Outcome.WALK_AWAY ∧
    determineOutcome "pause" ob ow = Outcome.PAUSED ∧
    determineOutcome a (some b) (some w) =
      (if b < w then Outcome.WALK_AWAY else Outcome.ERROR) := by
  refine ⟨rfl, rfl, rfl, rfl, ?_⟩
  simp only [determineOutcome, Option.getD_some, beq_iff_eq]
  rw [if_neg ha1, if_neg ha2, if_neg ha3, if_neg ha4]

/-- Witness for C6 at a concrete non-terminal turn: with
`action = "continue"`, `batna = 0.2` and `threshold = 0.3` the turn
transitions to `WALK_AWAY`, and the four terminal actions map to their
outcomes. -/
theorem c6_outcome_classifier_witness :
    determineOutcome "accept" none none = Outcome.DEAL_ACCEPTED ∧
    determineOutcome "continue" (some (Rat.divInt 1 5)) (some (Rat.divInt 3 10)) =
      Outcome.WALK_AWAY := by
  have h := c6_outcome_classifier "continue" (Rat.divInt 1 5) (Rat.divInt 3 10)
    none none (by decide) (by decide) (by decide) (by decide)
  refine ⟨h.1, ?_⟩
  rw [h.2.2.2.2, if_pos (by norm_num [Rat.divInt_eq_div])]

/-! ## The perspective resolver -/

lemma ok_bind {α β : Type} (a : α) (f : α → Except String β) :
    (Except.ok a >>= f) = f a := rfl

lemma error_bind {α β : Type} (e : String) (f : α → Except String β) :
    ((Except.error e : Except String α) >>= f) = Except.error e := rfl

lemma calcOpp_buyer (t q : ℚ) (dd : JVal) (h : extractDistance dd = Except.ok q) :
    calculateOpponentTargetPrice t dd "BUYER" maxPriceDeviation =
      Except.ok (t * (1 - max 0 (min q 100) / 100 * maxPriceDeviation)) := by
  simp [calculateOpponentTargetPrice, h, ok_bind,
    show upperStr "BUYER" = "BUYER" from by decide]

lemma calcOpp_seller (t q : ℚ) (dd : JVal) (h : extractDistance dd = Except.ok q) :
    calculateOpponentTargetPrice t dd "SELLER" maxPriceDeviation =
      Except.ok (t * (1 + max 0 (min q 100) / 100 * maxPriceDeviation)) := by
  simp [calculateOpponentTargetPrice, h, ok_bind,
    show upperStr "SELLER" = "SELLER" from by decide,
    show ("SELLER" = "BUYER") = False from by decide]

lemma pricingLinesAux_self_ctx (role : String) (ctx ctx' : JVal) :
    ∀ (ps : List JVal) (acc : PricingLines),
      pricingLinesAux role true ctx acc ps = pricingLinesAux role true ctx' acc ps
  | [], _ => rfl
  | p :: rest, acc => by
      cases p with
      | obj fs =>
          simp only [pricingLinesAux, adjustedTargetPrice, Bool.not_true,
            Bool.false_and, Bool.and_self, if_false, Except.bind]
          exact pricingLinesAux_self_ctx role ctx ctx' rest _
      | null => rfl
      | bool b => rfl
      | num q => rfl
      | str s => rfl
      | arr xs => rfl

lemma buildPricingStrings_self_ctx (ps : List JVal) (role : String)
    (ctx ctx' : JVal) :
    buildPricingStrings ps role true ctx = buildPricingStrings ps role true ctx' := by
  unfold buildPricingStrings
  cases hps : ps.isEmpty
  · simp only [Bool.false_eq_true, if_false, pricingLinesAux_self_ctx role ctx ctx' ps]
  · rfl

/-- C7: the opponent's perceived target price is
`trueTarget × (1 ∓ deviation)` with
`deviation = clamp(distance, 0, 100) / 100 × 0.30` (`−` for a BUYER
opponent, `+` for a SELLER opponent); the distance comes from the
`gesamt` field of a dict input when present and non-zero, else from the
first value, else is 0; the three spec examples hold exactly; and the
self view of the pricing strings never depends on the distance data
(the true targets are kept). -/
theorem c7_perceived_target_price :
    (∀ (t q : ℚ) (dd : JVal), extractDistance dd = Except.ok q →
      calculateOpponentTargetPrice t dd "BUYER" maxPriceDeviation =
        Except.ok (t * (1 - max 0 (min q 100) / 100 * maxPriceDeviation)) ∧
      calculateOpponentTargetPrice t dd "SELLER" maxPriceDeviation =
        Except.ok (t * (1 + max 0 (min q 100) / 100 * maxPriceDeviation))) ∧
    (∀ (fs : Obj) (g : ℚ), getOpt fs "gesamt" = some (JVal.num g) → g ≠ 0 →
      extractDistance (JVal.obj fs) = Except.ok g) ∧
    (∀ (k : String) (v : JVal) (r : Obj) (q : ℚ),
      pyFloat (pyGetD ((k, v) :: r) "gesamt" (JVal.num 0)) = some 0 →
      pyFloat v = some q →
      extractDistance (JVal.obj ((k, v) :: r)) = Except.ok q) ∧
    extractDistance (JVal.obj []) = Except.ok 0 ∧
    extractDistance JVal.null = Except.ok 0 ∧
    calculateOpponentTargetPrice 10 (JVal.num 100) "BUYER" maxPriceDeviation =
      Except.ok 7 ∧
    calculateOpponentTargetPrice 10 (JVal.num 50) "SELLER" maxPriceDeviation =
      Except.ok (Rat.divInt 23 2) ∧
    calculateOpponentTargetPrice (Rat.divInt 6 5) (JVal.num 0) "BUYER"
      maxPriceDeviation = Except.ok (Rat.divInt 6 5) ∧
    (∀ (ps : List JVal) (role : String) (ctx ctx' : JVal),
      buildPricingStrings ps role true ctx = buildPricingStrings ps role true ctx') := by
  refine ⟨fun t q dd h => ⟨calcOpp_buyer t q dd h, calcOpp_seller t q dd h⟩,
    ?_, ?_, rfl, rfl, ?_, ?_, ?_,
    fun ps role ctx ctx' => buildPricingStrings_self_ctx ps role ctx ctx'⟩
  · intro fs g hg hg0
    simp [extractDistance, pyGetD, hg, pyFloat, ok_bind, hg0]
  · intro k v r q h0 hq
    simp [extractDistance, h0, hq, ok_bind]
  · rw [calcOpp_buyer 10 100 (JVal.num 100) rfl]
    norm_num [maxPriceDeviation, max_def, min_def]
  · rw [calcOpp_seller 10 50 (JVal.num 50) rfl]
    norm_num [maxPriceDeviation, max_def, min_def, Rat.divInt_eq_div]
  · rw [calcOpp_buyer (Rat.divInt 6 5) 0 (JVal.num 0) rfl]
    norm_num [maxPriceDeviation, max_def, min_def]

/-- Witness for C7: the distance-extraction branches applied at concrete
inputs. -/
theorem c7_perceived_target_price_witness :
    extractDistance (JVal.obj [("gesamt", JVal.num 100)]) = Except.ok 100 ∧
    extractDistance (JVal.obj [("kultur", JVal.num 40)]) = Except.ok 40 ∧
    calculateOpponentTargetPrice 2 (JVal.num 100) "BUYER" maxPriceDeviation =
      Except.ok (2 * (1 - max 0 (min 100 100) / 100 * maxPriceDeviation)) := by
  refine ⟨c7_perceived_target_price.2.1 [("gesamt", JVal.num 100)] 100
      rfl (by norm_num),
    c7_perceived_target_price.2.2.1 "kultur" (JVal.num 40) [] 40 ?_ rfl,
    (c7_perceived_target_price.1 2 100 (JVal.num 100) rfl).1⟩
  rfl

/-! ## Final-offer selection -/

lemma offerNonEmptyE_obj (o : Obj) :
    offerNonEmptyE (JVal.obj o) =
      Except.ok (truthy (JVal.obj o) && truthy (pyGet o "dimension_values")) := by
  unfold offerNonEmptyE
  cases h : truthy (JVal.obj o) <;> simp [h]

/-- C9: when the deal is accepted on a turn whose own offer has no
dimension values while the immediately preceding turn's offer has some
(and at least two turns exist), the finalized `finalOffer` is the
preceding turn's offer. -/
theorem c9_final_offer_fallback (ts : List TurnRecord) (t3 t4 : TurnRecord)
    (o3 o4 : Obj)
    (h4 : pyGet t4.response "offer" = JVal.obj o4)
    (h4e : truthy (pyGet o4 "dimension_values") = false)
    (h3 : pyGet t3.response "offer" = JVal.obj o3)
    (h3n : truthy (pyGet o3 "dimension_values") = true) :
    determineFinalOffer Outcome.DEAL_ACCEPTED (ts ++ [t3, t4]) =
      Except.ok (JVal.obj o3) := by
  have hrev : (ts ++ [t3, t4]).reverse = t4 :: t3 :: ts.reverse := by
    simp
  have ho3 : o3 ≠ [] := by
    intro h
    rw [h] at h3n
    simp [pyGet, getOpt, truthy] at h3n
  have ht3 : truthy (JVal.obj o3) = true := by
    simp [truthy, ho3]
  have hlen : 2 ≤ (ts ++ [t3, t4]).length := by
    simp
  unfold determineFinalOffer
  rw [hrev]
  simp only [h4, offerNonEmptyE_obj, h4e, Bool.and_false, ok_bind,
    Bool.not_false, h3, h3n, ht3, Bool.and_true, Bool.and_self, hlen]
  simp [hlen]

/-- Witness for C9: accepting on turn 4 with an empty offer while turn
3's offer was `{"Price": 100}` yields that offer as `finalOffer`. -/
theorem c9_final_offer_fallback_witness :
    determineFinalOffer Outcome.DEAL_ACCEPTED
      [⟨"BUYER", [("offer", JVal.obj [("dimension_values", JVal.obj [("Price", JVal.num 95)])])]⟩,
       ⟨"SELLER", [("offer", JVal.obj [("dimension_values", JVal.obj [("Price", JVal.num 105)])])]⟩,
       ⟨"BUYER", [("offer", JVal.obj [("dimension_values", JVal.obj [("Price", JVal.num 100)])])]⟩,
       ⟨"SELLER", [("offer", JVal.obj [("dimension_values", JVal.obj [])]), ("action", JVal.str "accept")]⟩] =
      Except.ok (JVal.obj [("dimension_values", JVal.obj [("Price", JVal.num 100)])]) :=
  c9_final_offer_fallback
    [⟨"BUYER", [("offer", JVal.obj [("dimension_values", JVal.obj [("Price", JVal.num 95)])])]⟩,
     ⟨"SELLER", [("offer", JVal.obj [("dimension_values", JVal.obj [("Price", JVal.num 105)])])]⟩]
    ⟨"BUYER", [("offer", JVal.obj [("dimension_values", JVal.obj [("Price", JVal.num 100)])])]⟩
    ⟨"SELLER", [("offer", JVal.obj [("dimension_values", JVal.obj [])]), ("action", JVal.str "accept")]⟩
    [("dimension_values", JVal.obj [("Price", JVal.num 100)])]
    [("dimension_values", JVal.obj [])]
    rfl (by decide) rfl (by decide)

/-! ## The extension rule of the round loop -/

/-- A concrete two-turn transcript (one turn per role) whose last two
offers converge. -/
def c2CexResults : List TurnRecord :=
  [⟨"BUYER", [("offer", JVal.obj [("dimension_values",
      JVal.obj [("Price", JVal.num 100)])])]⟩,
   ⟨"SELLER", [("offer", JVal.obj [("dimension_values",
      JVal.obj [("Price", JVal.num 101)])])]⟩]

/-- Counterexample to C2 as stated: at `exchange_num = 1`,
`max_rounds = 1`, after one BUYER and one SELLER turn, the code extends
the budget to `min(1 + 3, 20) = 4` even though no role has two prior
turns, so the spec's same-role condition (§4.5) is false there. -/
theorem c2_counterexample :
    updateMaxRounds 1 1 c2CexResults = Except.ok 4 ∧
    specExtendCondition 1 1 c2CexResults = false := by
  constructor
  · norm_num [updateMaxRounds, shouldExtendNegotiation, turnOfferDims,
      c2CexResults, pyGetD, pyGet, getOpt, truthy, analyzeConvergence, convStep,
      hasKey, pyFloat, convergenceThreshold, minConvergenceRatio,
      absoluteMaxRounds, ok_bind]
  · decide

/-- C2 (amended): after a non-terminal turn the budget becomes
`min(exchange_num + 3, 20)` exactly when `exchange_num ≥ max_rounds`,
`exchange_num < 20`, at least two prior turns exist (by any role), and
the convergence detector fires on the offers of the **last two turns**
(which belong to opposite roles); otherwise the budget is unchanged. -/
theorem c2_extension_rule (ts : List TurnRecord) (t2 t1 : TurnRecord)
    (e m : ℕ) :
    updateMaxRounds e m (ts ++ [t2, t1]) =
      if e < m ∨ absoluteMaxRounds ≤ e then Except.ok m
      else
        (turnOfferDims t1).bind fun c =>
          (turnOfferDims t2).bind fun p =>
            Except.ok
              (if analyzeConvergence c p then min (e + 3) absoluteMaxRounds
               else m) := by
  have hlen : ((ts ++ [t2, t1]).length < 2) = False := by
    simp
  have hrev : (ts ++ [t2, t1]).reverse = t1 :: t2 :: ts.reverse := by
    simp
  by_cases h : e < m ∨ absoluteMaxRounds ≤ e
  · rw [if_pos h]
    unfold updateMaxRounds shouldExtendNegotiation
    rcases h with h | h
    · simp [h, ok_bind]
    · simp [h, ok_bind]
  · rw [if_neg h]
    push_neg at h
    unfold updateMaxRounds shouldExtendNegotiation
    rw [hrev]
    simp only [hlen, Nat.not_lt.2 h.1, Nat.not_le.2 h.2, decide_False,
      Bool.false_or, Bool.or_false, Bool.false_eq_true, if_false]
    rcases hc1 : turnOfferDims t1 with e1 | c <;>
      rcases hc2 : turnOfferDims t2 with e2 | p <;>
        simp [hc1, hc2, ok_bind, error_bind, Except.bind]

/-! ## Well-formedness for the normalizer and basic map lemmas -/

/-- Whether the value is a string. -/
def isStrB : JVal → Bool
  | JVal.str _ => true
  | _ => false

/-- The value is either falsy or a string (so Python may call `.lower()`
on it after an `or` guard). -/
def strOrNotTruthy (v : JVal) : Bool :=
  !truthy v || isStrB v

/-- The value is either falsy or a dict (so `.get`/`.items()` after an
`or {}` guard cannot raise). -/
def objOrNotTruthy (v : JVal) : Bool :=
  !truthy v || isObjB v

/-- The raw `action` field of the response (`None` when the response is
not a dict). -/
def rawActionOf (response : JVal) : JVal :=
  match response with
  | JVal.obj fs => pyGet fs "action"
  | _ => JVal.null

/-- Shape conditions on the raw agent output under which
`normalize_model_output` cannot raise: the response, its `offer` field
and the offer's `dimension_values` field are dicts where truthy, and
the `action` field is a string where truthy. -/
def responseShapeOK (response : JVal) : Bool :=
  objOrNotTruthy response &&
    (match response with
     | JVal.obj fs =>
         objOrNotTruthy (pyGet fs "offer") &&
           strOrNotTruthy (pyGet fs "action") &&
           (match pyGet fs "offer" with
            | JVal.obj ofs => objOrNotTruthy (pyGet ofs "dimension_values")
            | _ => true)
     | _ => true)

/-- A Python value that can be used as a dict key where truthy: truthy
lists and dicts are unhashable and raise `TypeError` when indexed. -/
def hashableWhenTruthy (v : JVal) : Bool :=
  match v with
  | JVal.arr xs => xs.isEmpty
  | JVal.obj fs => fs.isEmpty
  | _ => true

/-- A well-formed registry dimension: a dict whose `unit` field, where
truthy, is a string, and whose `name` field is not a truthy list or
dict (those would raise `TypeError: unhashable type` at
`dim_index[name]`). -/
def dimWF (d : JVal) : Bool :=
  match d with
  | JVal.obj fs =>
      strOrNotTruthy (pyGetD fs "unit" (JVal.str "")) &&
        hashableWhenTruthy (pyGet fs "name")
  | _ => false

/-- A well-formed registry product: a dict whose resolved name and
explicit `product_key`, where truthy, are strings. -/
def prodWF (p : JVal) : Bool :=
  match p with
  | JVal.obj fs =>
      strOrNotTruthy (pyOr (pyGet fs "name")
          (pyOr (pyGet (attrsOf fs) "name") (pyGet fs "produktName"))) &&
        strOrNotTruthy (pyOr (pyGet fs "product_key")
          (pyGet (attrsOf fs) "product_key"))
  | _ => false

lemma mem_insertKey {α : Type} {m : List (String × α)} {k : String} {v : α}
    {e : String × α} (h : e ∈ insertKey m k v) : e ∈ m ∨ e = (k, v) := by
  unfold insertKey at h
  by_cases hany : m.any (fun p => p.1 == k)
  · rw [if_pos hany] at h
    rcases List.mem_map.1 h with ⟨p, hp, he⟩
    by_cases hk : p.1 == k
    · rw [if_pos hk] at he
      exact Or.inr he.symm
    · rw [if_neg hk] at he
      exact Or.inl (he ▸ hp)
  · rw [if_neg hany] at h
    rcases List.mem_append.1 h with h | h
    · exact Or.inl h
    · simp at h
      exact Or.inr (by rw [h])

lemma lookupStr_mem {α : Type} {m : List (String × α)} {k : String} {v : α}
    (h : lookupStr m k = some v) : (k, v) ∈ m := by
  unfold lookupStr at h
  rcases hf : m.find? (fun p => p.1 == k) with _ | p
  · rw [hf] at h
    simp at h
  · rw [hf] at h
    simp at h
    have hm := List.mem_of_find?_eq_some hf
    have hp := List.find?_some hf
    simp at hp
    rw [← hp, ← h]
    exact hm

lemma strOrNotTruthy_pyOr_emptyStr {u : JVal}
    (h : strOrNotTruthy u = true) :
    strOrNotTruthy (pyOr u (JVal.str "")) = true := by
  unfold pyOr
  by_cases ht : truthy u
  · rw [if_pos ht]
    exact h
  · rw [if_neg ht]
    rfl

lemma unitStrE_ok_of_wf {u : JVal} (h : strOrNotTruthy u = true) :
    ∃ ul, unitStrE u = Except.ok ul := by
  unfold unitStrE
  by_cases ht : truthy u
  · rw [if_pos ht]
    unfold strOrNotTruthy at h
    rw [ht] at h
    simp at h
    cases u with
    | str s => exact ⟨lowerStr s, rfl⟩
    | null => exact absurd h (by simp [isStrB])
    | bool b => exact absurd h (by simp [isStrB])
    | num q => exact absurd h (by simp [isStrB])
    | arr xs => exact absurd h (by simp [isStrB])
    | obj fs => exact absurd h (by simp [isStrB])
  · rw [if_neg ht]
    exact ⟨"", rfl⟩

lemma mkDimEntry_unit_wf {fs : Obj}
    (h : strOrNotTruthy (pyGetD fs "unit" (JVal.str "")) = true) :
    strOrNotTruthy (mkDimEntry fs).unit = true :=
  strOrNotTruthy_pyOr_emptyStr h

lemma dimIndexAux_ok :
    ∀ (dims : List JVal) (acc : List (String × DimMeta)),
      (∀ d ∈ dims, dimWF d = true) →
      (∀ e ∈ acc, strOrNotTruthy e.2.unit = true) →
      ∃ idx, dimIndexAux acc dims = Except.ok idx ∧
        ∀ e ∈ idx, strOrNotTruthy e.2.unit = true
  | [], acc, _, hacc => ⟨acc, rfl, hacc⟩
  | d :: rest, acc, hdims, hacc => by
      have hd : dimWF d = true := hdims d (List.mem_cons_self d rest)
      have hrest : ∀ x ∈ rest, dimWF x = true := fun x hx =>
        hdims x (List.mem_cons_of_mem d hx)
      cases d with
      | obj fs =>
          have hd' : strOrNotTruthy (pyGetD fs "unit" (JVal.str "")) = true ∧
              hashableWhenTruthy (pyGet fs "name") = true := by
            simpa [dimWF, Bool.and_eq_true] using hd
          have hu := hd'.1
          rcases hn : pyGet fs "name" with _ | b | q | sname | xs | fs2 <;>
            simp only [dimIndexAux, hn]
          case str =>
            by_cases hs : sname ≠ ""
            · rw [if_pos hs]
              refine dimIndexAux_ok rest _ hrest ?_
              intro e he
              rcases mem_insertKey he with he | he
              · exact hacc e he
              · rw [he]
                exact mkDimEntry_unit_wf hu
            · rw [if_neg hs]
              exact dimIndexAux_ok rest acc hrest hacc
          case arr =>
            have hx : xs.isEmpty = true := by
              have h2 := hd'.2
              rw [hn] at h2
              simpa [hashableWhenTruthy] using h2
            rw [if_pos hx]
            exact dimIndexAux_ok rest acc hrest hacc
          case obj =>
            have hx : fs2.isEmpty = true := by
              have h2 := hd'.2
              rw [hn] at h2
              simpa [hashableWhenTruthy] using h2
            rw [if_pos hx]
            exact dimIndexAux_ok rest acc hrest hacc
          all_goals exact dimIndexAux_ok rest acc hrest hacc
      | null => exact absurd hd (by simp [dimWF])
      | bool b => exact absurd hd (by simp [dimWF])
      | num q => exact absurd hd (by simp [dimWF])
      | str sv => exact absurd hd (by simp [dimWF])
      | arr xs => exact absurd hd (by simp [dimWF])

lemma productKeyMapAux_ok :
    ∀ (ps : List JVal) (acc : List (String × String)),
      (∀ p ∈ ps, prodWF p = true) →
      ∃ m, productKeyMapAux acc ps = Except.ok m
  | [], acc, _ => ⟨acc, rfl⟩
  | p :: rest, acc, hps => by
      have hp : prodWF p = true := hps p (List.mem_cons_self p rest)
      have hrest : ∀ x ∈ rest, prodWF x = true := fun x hx =>
        hps x (List.mem_cons_of_mem p hx)
      cases p with
      | obj fs =>
          have hp' := hp
          unfold prodWF at hp'
          rw [Bool.and_eq_true] at hp'
          by_cases hn : truthy (pyOr (pyGet fs "name")
              (pyOr (pyGet (attrsOf fs) "name") (pyGet fs "produktName")))
          · have hstr : isStrB (pyOr (pyGet fs "name")
                (pyOr (pyGet (attrsOf fs) "name") (pyGet fs "produktName"))) = true := by
              have := hp'.1
              unfold strOrNotTruthy at this
              rw [hn] at this
              simpa using this
            rcases hns : pyOr (pyGet fs "name")
                (pyOr (pyGet (attrsOf fs) "name") (pyGet fs "produktName")) with
              _ | b | q | ns | xs | fs2 <;> rw [hns] at hstr <;>
                simp [isStrB] at hstr
            rw [hns] at hn
            by_cases he : truthy (pyOr (pyGet fs "product_key")
                (pyGet (attrsOf fs) "product_key"))
            · have hestr : isStrB (pyOr (pyGet fs "product_key")
                  (pyGet (attrsOf fs) "product_key")) = true := by
                have := hp'.2
                unfold strOrNotTruthy at this
                rw [he] at this
                simpa using this
              rcases hes : pyOr (pyGet fs "product_key")
                  (pyGet (attrsOf fs) "product_key") with
                _ | b | q | es | xs | fs2 <;> rw [hes] at hestr <;>
                  simp [isStrB] at hestr
              rw [hes] at he
              simp only [productKeyMapAux, hns, hn, hes, he, if_pos, if_true]
              exact productKeyMapAux_ok rest _ hrest
            · simp only [productKeyMapAux, hns, hn, if_true]
              rw [if_neg (by simpa using he)]
              exact productKeyMapAux_ok rest _ hrest
          · simp only [productKeyMapAux]
            rw [if_neg (by simpa using hn)]
            exact productKeyMapAux_ok rest acc hrest
      | null => exact absurd hp (by simp [prodWF])
      | bool b => exact absurd hp (by simp [prodWF])
      | num q => exact absurd hp (by simp [prodWF])
      | str sv => exact absurd hp (by simp [prodWF])
      | arr xs => exact absurd hp (by simp [prodWF])

lemma normDimsAux_ok (dims : List JVal) (dimIdx : List (String × DimMeta))
    (useMap : Bool) (pkMap : List (String × String))
    (hidx : ∀ e ∈ dimIdx, strOrNotTruthy e.2.unit = true) :
    ∀ (l : List (String × JVal)) (acc : List (String × ℚ)),
      ∃ out, normDimsAux dims dimIdx useMap pkMap acc l = Except.ok out
  | [], acc => ⟨acc, rfl⟩
  | (key, raw) :: rest, acc => by
      rcases hv : extractNumeric raw with _ | v0 <;>
        rcases hm : lookupStr dimIdx (correctKey useMap pkMap key) with _ | m <;>
          simp only [normDimsAux, hv, hm]
      · exact normDimsAux_ok dims dimIdx useMap pkMap hidx rest acc
      · by_cases ht : isNullB (targetValueOf dims (correctKey useMap pkMap key))
        · rw [if_pos ht]
          exact normDimsAux_ok dims dimIdx useMap pkMap hidx rest acc
        · rw [if_neg ht]
          obtain ⟨ul, hul⟩ :=
            unitStrE_ok_of_wf (hidx (correctKey useMap pkMap key, m) (lookupStr_mem hm))
          rw [hul]
          exact normDimsAux_ok dims dimIdx useMap pkMap hidx rest _
      · exact normDimsAux_ok dims dimIdx useMap pkMap hidx rest _
      · obtain ⟨ul, hul⟩ :=
          unitStrE_ok_of_wf (hidx (correctKey useMap pkMap key, m) (lookupStr_mem hm))
        rw [hul]
        exact normDimsAux_ok dims dimIdx useMap pkMap hidx rest _

lemma insertKey_invariant {dimIdx : List (String × DimMeta)}
    {acc : List (String × ℚ)} {ck : String} {v : ℚ}
    (hacc : ∀ kv ∈ acc, ∀ m, lookupStr dimIdx kv.1 = some m →
        ∃ v0 ul, unitStrE m.unit = Except.ok ul ∧ kv.2 = finalizeVal m ul v0)
    (hnew : ∀ m, lookupStr dimIdx ck = some m →
        ∃ v0 ul, unitStrE m.unit = Except.ok ul ∧ v = finalizeVal m ul v0) :
    ∀ kv ∈ insertKey acc ck v, ∀ m, lookupStr dimIdx kv.1 = some m →
        ∃ v0 ul, unitStrE m.unit = Except.ok ul ∧ kv.2 = finalizeVal m ul v0 := by
  intro kv hkv m hm
  rcases mem_insertKey hkv with hold | hnw
  · exact hacc kv hold m hm
  · rw [hnw] at hm ⊢
    exact hnew m hm

lemma normDimsAux_values (dims : List JVal) (dimIdx : List (String × DimMeta))
    (useMap : Bool) (pkMap : List (String × String)) :
    ∀ (l : List (String × JVal)) (acc out : List (String × ℚ)),
      normDimsAux dims dimIdx useMap pkMap acc l = Except.ok out →
      (∀ kv ∈ acc, ∀ m, lookupStr dimIdx kv.1 = some m →
          ∃ v0 ul, unitStrE m.unit = Except.ok ul ∧ kv.2 = finalizeVal m ul v0) →
      ∀ kv ∈ out, ∀ m, lookupStr dimIdx kv.1 = some m →
          ∃ v0 ul, unitStrE m.unit = Except.ok ul ∧ kv.2 = finalizeVal m ul v0
  | [], acc, out, h, hacc => by
      have hao : acc = out := by
        simpa [normDimsAux] using h
      exact hao ▸ hacc
  | (key, raw) :: rest, acc, out, h, hacc => by
      rcases hv : extractNumeric raw with _ | v0 <;>
        rcases hm : lookupStr dimIdx (correctKey useMap pkMap key) with _ | m <;>
          rw [normDimsAux] at h <;> simp only [hv, hm] at h
      · exact normDimsAux_values dims dimIdx useMap pkMap rest acc out h hacc
      · by_cases ht : isNullB (targetValueOf dims (correctKey useMap pkMap key))
        · rw [if_pos ht] at h
          exact normDimsAux_values dims dimIdx useMap pkMap rest acc out h hacc
        · rw [if_neg ht] at h
          rcases hu : unitStrE m.unit with e | ul <;> rw [hu] at h
          · exact absurd h (by simp)
          · refine normDimsAux_values dims dimIdx useMap pkMap rest _ out h
              (insertKey_invariant hacc ?_)
            intro m' hm'
            rw [hm] at hm'
            cases hm'
            exact ⟨safeFloatConvert (targetValueOf dims (correctKey useMap pkMap key)),
              ul, hu, rfl⟩
      · refine normDimsAux_values dims dimIdx useMap pkMap rest _ out h
          (insertKey_invariant hacc ?_)
        intro m' hm'
        rw [hm] at hm'
        cases hm'
      · rcases hu : unitStrE m.unit with e | ul <;> rw [hu] at h
        · exact absurd h (by simp)
        · refine normDimsAux_values dims dimIdx useMap pkMap rest _ out h
            (insertKey_invariant hacc ?_)
          intro m' hm'
          rw [hm] at hm'
          cases hm'
          exact ⟨v0, ul, hu, rfl⟩

lemma normalizeModelOutput_inv (response : JVal) (dims products : List JVal)
    (out : NormResult)
    (h : normalizeModelOutput response dims products = Except.ok out) :
    ∃ idx pkMap dimVals,
      dimIndexE dims = Except.ok idx ∧
      productKeyMapE products = Except.ok pkMap ∧
      normDimsAux dims idx (!products.isEmpty) pkMap [] dimVals =
        Except.ok out.dimensionValues := by
  unfold normalizeModelOutput at h
  rcases h1 : respFieldsE response with e | respF
  · rw [h1, error_bind] at h
    exact absurd h (by simp)
  rw [h1, ok_bind] at h
  rcases h2 : offerFieldsE respF with e | offerF
  · rw [h2, error_bind] at h
    exact absurd h (by simp)
  rw [h2, ok_bind] at h
  rcases h3 : dimValsE offerF with e | dimVals
  · rw [h3, error_bind] at h
    exact absurd h (by simp)
  rw [h3, ok_bind] at h
  rcases h4 : dimIndexE dims with e | idx
  · rw [h4, error_bind] at h
    exact absurd h (by simp)
  rw [h4, ok_bind] at h
  rcases h5 : productKeyMapE products with e | pkMap
  · rw [h5, error_bind] at h
    exact absurd h (by simp)
  rw [h5, ok_bind] at h
  rcases h6 : normDimsAux dims idx (!products.isEmpty) pkMap [] dimVals with e | nd
  · rw [h6, error_bind] at h
    exact absurd h (by simp)
  rw [h6, ok_bind] at h
  rcases h7 : actionE respF with e | a
  · rw [h7, error_bind] at h
    exact absurd h (by simp)
  rw [h7, ok_bind] at h
  cases h
  exact ⟨idx, pkMap, dimVals, rfl, rfl, h6⟩

lemma pyOrObj_ok {v : JVal} (h : objOrNotTruthy v = true) :
    ∃ fs, (match pyOr v (JVal.obj []) with
           | JVal.obj fs => Except.ok fs
           | _ => (Except.error "AttributeError" : Except String Obj)) =
        Except.ok fs ∧
      (truthy v = true → v = JVal.obj fs) ∧ (truthy v = false → fs = []) := by
  unfold objOrNotTruthy at h
  by_cases ht : truthy v
  · rw [ht] at h
    simp only [Bool.not_true, Bool.false_or] at h
    cases v with
    | obj fs => exact ⟨fs, by simp [pyOr, ht], fun _ => rfl, fun hf => by
        rw [ht] at hf; cases hf⟩
    | null => exact absurd h (by simp [isObjB])
    | bool b => exact absurd h (by simp [isObjB])
    | num q => exact absurd h (by simp [isObjB])
    | str sv => exact absurd h (by simp [isObjB])
    | arr xs => exact absurd h (by simp [isObjB])
  · refine ⟨[], ?_, fun htr => absurd htr ht, fun _ => rfl⟩
    simp [pyOr, ht]

lemma dimIndexE_ok {dims : List JVal} (h : ∀ d ∈ dims, dimWF d = true) :
    ∃ idx, dimIndexE dims = Except.ok idx ∧
      ∀ e ∈ idx, strOrNotTruthy e.2.unit = true := by
  exact dimIndexAux_ok dims [] h (by intro e he; cases he)

lemma productKeyMapE_ok {products : List JVal}
    (h : ∀ p ∈ products, prodWF p = true) :
    ∃ m, productKeyMapE products = Except.ok m := by
  unfold productKeyMapE
  by_cases hp : products.isEmpty
  · rw [if_pos hp]
    exact ⟨[], rfl⟩
  · rw [if_neg hp]
    exact productKeyMapAux_ok products [] h

lemma actionE_spec (respF : Obj)
    (h : strOrNotTruthy (pyGet respF "action") = true) :
    ∃ a, actionE respF = Except.ok a ∧ a ∈ allowedActions ∧
      (truthy (pyGet respF "action") = false → a = "continue") ∧
      (∀ s, pyGet respF "action" = JVal.str s →
        a = if allowedActions.contains (lowerStr s) then lowerStr s
            else "continue") := by
  by_cases ht : truthy (pyGet respF "action")
  · unfold strOrNotTruthy at h
    rw [ht] at h
    simp only [Bool.not_true, Bool.false_or] at h
    rcases hs : pyGet respF "action" with _ | b | q | sv | xs | fs <;>
      rw [hs] at h <;> simp [isStrB] at h
    rw [hs] at ht
    refine ⟨if allowedActions.contains (lowerStr sv) then lowerStr sv
        else "continue", ?_, ?_, ?_, ?_⟩
    · simp only [actionE, hs, ht, if_true, ok_bind]
    · by_cases hc : allowedActions.contains (lowerStr sv)
      · rw [if_pos hc]
        simpa [allowedActions] using hc
      · rw [if_neg hc]
        decide
    · intro hf
      rw [ht] at hf
      cases hf
    · intro s hss
      cases hss
      rfl
  · have hfalse : truthy (pyGet respF "action") = false := by
      simpa using ht
    refine ⟨"continue", ?_, by decide, fun _ => rfl, ?_⟩
    · simp only [actionE, hfalse, Bool.false_eq_true, if_false, ok_bind]
      rfl
    · intro s hss
      rw [hss] at hfalse
      have hsempty : s = "" := by
        simpa [truthy] using hfalse
      rw [hsempty]
      decide

lemma respFields_spec (response : JVal)
    (hresp : responseShapeOK response = true) :
    ∃ respF, respFieldsE response = Except.ok respF ∧
      pyGet respF "action" = rawActionOf response ∧
      strOrNotTruthy (pyGet respF "action") = true ∧
      objOrNotTruthy (pyGet respF "offer") = true ∧
      (match pyGet respF "offer" with
       | JVal.obj ofs => objOrNotTruthy (pyGet ofs "dimension_values")
       | _ => true) = true := by
  unfold responseShapeOK at hresp
  rw [Bool.and_eq_true] at hresp
  by_cases htr : truthy response
  · have hobj : isObjB response = true := by
      have := hresp.1
      unfold objOrNotTruthy at this
      rw [htr] at this
      simpa using this
    rcases response with _ | b | q | sv | xs | fs <;> simp [isObjB] at hobj
    have h2 := hresp.2
    rw [Bool.and_eq_true, Bool.and_eq_true] at h2
    refine ⟨fs, ?_, rfl, h2.1.2, h2.1.1, h2.2⟩
    unfold respFieldsE
    rw [if_pos htr]
  · refine ⟨[], ?_, ?_, rfl, rfl, rfl⟩
    · unfold respFieldsE
      rw [if_neg htr]
    · rcases response with _ | b | q | sv | xs | fs
      · rfl
      · rfl
      · rfl
      · rfl
      · rfl
      · have hfs : fs = [] := by
          simpa [truthy] using htr
        rw [rawActionOf, hfs]

/-- C1 (amended): for every raw agent output whose `offer` field,
`offer.dimension_values` field and `action` field have the container
types the code dereferences (dict, dict, string — or are falsy or
missing), and for well-formed registry dimensions and products (dicts
whose `unit`, resolved name and `product_key` fields are strings where
truthy, and whose dimension `name` is not a truthy list or dict —
unhashable names raise `TypeError` at `dim_index[name]`),
`normalize_model_output` succeeds and returns an action in the allowed
five-element set, keeping a recognized action (lower-cased) and
defaulting to `continue` when the action is missing, falsy or
unrecognized. -/
theorem c1_normalizer_action_repair (response : JVal)
    (dims products : List JVal)
    (hresp : responseShapeOK response = true)
    (hdims : ∀ d ∈ dims, dimWF d = true)
    (hprods : ∀ p ∈ products, prodWF p = true) :
    ∃ out, normalizeModelOutput response dims products = Except.ok out ∧
      out.action ∈ allowedActions ∧
      (truthy (rawActionOf response) = false → out.action = "continue") ∧
      (∀ s, rawActionOf response = JVal.str s →
        out.action = if allowedActions.contains (lowerStr s) then lowerStr s
          else "continue") := by
  obtain ⟨respF, h1, hact, hactwf, hoffer, hdv⟩ := respFields_spec response hresp
  obtain ⟨offerF, h2, hoTrue, hoFalse⟩ := pyOrObj_ok hoffer
  have h2' : offerFieldsE respF = Except.ok offerF := h2
  have hdvF : objOrNotTruthy (pyGet offerF "dimension_values") = true := by
    by_cases hot : truthy (pyGet respF "offer")
    · rw [hoTrue hot] at hdv
      exact hdv
    · rw [hoFalse (by simpa using hot)]
      rfl
  obtain ⟨dimVals, h3, _, _⟩ := pyOrObj_ok hdvF
  have h3' : dimValsE offerF = Except.ok dimVals := h3
  obtain ⟨idx, h4, hidxwf⟩ := dimIndexE_ok hdims
  obtain ⟨pkMap, h5⟩ := productKeyMapE_ok hprods
  obtain ⟨nd, h6⟩ := normDimsAux_ok dims idx (!products.isEmpty) pkMap hidxwf dimVals []
  obtain ⟨a, h7, hamem, hadef, haval⟩ := actionE_spec respF hactwf
  have hout : normalizeModelOutput response dims products = Except.ok
      ⟨a, nd, clamp01 ((extractNumeric (pyGet offerF "confidence")).getD (1/2)),
        clamp01 ((extractNumeric (pyGet respF "batna_assessment")).getD (1/2)),
        clamp01 ((extractNumeric (pyGet respF "walk_away_threshold")).getD (3/10))⟩ := by
    unfold normalizeModelOutput
    rw [h1, ok_bind, h2', ok_bind, h3', ok_bind, h4, ok_bind, h5, ok_bind,
      h6, ok_bind, h7, ok_bind]
  refine ⟨_, hout, hamem, ?_, ?_⟩
  · intro hf
    exact hadef (by rw [hact]; exact hf)
  · intro sv hs
    exact haval sv (by rw [hact]; exact hs)

/-- Counterexample to C1 as stated: on the output
`{"offer": "I accept"}` — a non-dict `offer` field, squarely within the
claim's "any shape" — `normalize_model_output` raises `AttributeError`
at `offer.get("dimension_values")` instead of returning a repaired
offer. -/
theorem c1_counterexample :
    normalizeModelOutput (JVal.obj [("offer", JVal.str "I accept")]) [] [] =
      Except.error "AttributeError" := rfl

/-- Witness for C1 (amended) at a concrete malformed-but-shape-OK
output: a mis-cased action `"ACCEPT"` is repaired to `"accept"`. -/
theorem c1_normalizer_action_repair_witness :
    ∃ out,
      normalizeModelOutput (JVal.obj [("action", JVal.str "ACCEPT")]) [] [] =
        Except.ok out ∧
      out.action ∈ allowedActions ∧
      (truthy (rawActionOf (JVal.obj [("action", JVal.str "ACCEPT")])) = false →
        out.action = "continue") ∧
      (∀ s, rawActionOf (JVal.obj [("action", JVal.str "ACCEPT")]) = JVal.str s →
        out.action = if allowedActions.contains (lowerStr s) then lowerStr s
          else "continue") :=
  c1_normalizer_action_repair (JVal.obj [("action", JVal.str "ACCEPT")]) [] []
    (by decide) (by intro d hd; cases hd) (by intro p hp; cases hp)

/-! ## Numeric-coercion fallback (C3) -/

/-- C3 (amended): when a single-key offer value yields no extractable
number and the registry has an entry for the key, the value falls back
to the dimension's `targetValue` (clamped and unit-rounded) **when that
field is present and non-null**; otherwise — including when the
dimension has min/max but no target — the key is dropped.  There is no
midpoint fallback.  When the registry has no entry for the key, the key
is dropped as well. -/
theorem c3_target_fallback_no_midpoint (k : String) (rawv : JVal)
    (dims : List JVal) (idx : List (String × DimMeta)) (out : NormResult)
    (hidx : dimIndexE dims = Except.ok idx)
    (hnone : extractNumeric rawv = none)
    (hout : normalizeModelOutput
        (JVal.obj [("offer",
          JVal.obj [("dimension_values", JVal.obj [(k, rawv)])])])
        dims [] = Except.ok out) :
    (lookupStr idx k = none → out.dimensionValues = []) ∧
    (∀ m ul, lookupStr idx k = some m → unitStrE m.unit = Except.ok ul →
      out.dimensionValues =
        if isNullB (targetValueOf dims k) then []
        else [(k, finalizeVal m ul (safeFloatConvert (targetValueOf dims k)))]) := by
  have hrf : respFieldsE (JVal.obj [("offer",
      JVal.obj [("dimension_values", JVal.obj [(k, rawv)])])]) =
      Except.ok [("offer", JVal.obj [("dimension_values", JVal.obj [(k, rawv)])])] := rfl
  have hof : offerFieldsE [("offer",
      JVal.obj [("dimension_values", JVal.obj [(k, rawv)])])] =
      Except.ok [("dimension_values", JVal.obj [(k, rawv)])] := rfl
  have hdv : dimValsE [("dimension_values", JVal.obj [(k, rawv)])] =
      Except.ok [(k, rawv)] := rfl
  have hact : actionE [("offer",
      JVal.obj [("dimension_values", JVal.obj [(k, rawv)])])] =
      Except.ok "continue" := rfl
  have hck : correctKey (!(([] : List JVal)).isEmpty) [] k = k := rfl
  constructor
  · intro hmn
    have hnd : normDimsAux dims idx (!(([] : List JVal)).isEmpty) [] [] [(k, rawv)] =
        Except.ok [] := by
      rw [normDimsAux]
      simp only [hck, hnone, hmn]
      rfl
    have hfull : normalizeModelOutput
        (JVal.obj [("offer",
          JVal.obj [("dimension_values", JVal.obj [(k, rawv)])])]) dims [] =
        Except.ok ⟨"continue", [],
          clamp01 ((extractNumeric (pyGet [("dimension_values", JVal.obj [(k, rawv)])] "confidence")).getD (1/2)),
          clamp01 ((extractNumeric (pyGet [("offer", JVal.obj [("dimension_values", JVal.obj [(k, rawv)])])] "batna_assessment")).getD (1/2)),
          clamp01 ((extractNumeric (pyGet [("offer", JVal.obj [("dimension_values", JVal.obj [(k, rawv)])])] "walk_away_threshold")).getD (3/10))⟩ := by
      unfold normalizeModelOutput
      rw [hrf, ok_bind, hof, ok_bind, hdv, ok_bind, hidx, ok_bind]
      rw [show productKeyMapE [] = Except.ok [] from rfl, ok_bind]
      rw [hnd, ok_bind, hact, ok_bind]
    have heq := hout.symm.trans hfull
    simp only [Except.ok.injEq] at heq
    rw [heq]
  · intro m ul hm hul
    by_cases ht : isNullB (targetValueOf dims k)
    · rw [if_pos ht]
      have hnd : normDimsAux dims idx (!(([] : List JVal)).isEmpty) [] [] [(k, rawv)] =
          Except.ok [] := by
        rw [normDimsAux]
        simp only [hck, hnone, hm, ht, if_true]
        rfl
      have hfull : normalizeModelOutput
          (JVal.obj [("offer",
            JVal.obj [("dimension_values", JVal.obj [(k, rawv)])])]) dims [] =
          Except.ok ⟨"continue", [],
            clamp01 ((extractNumeric (pyGet [("dimension_values", JVal.obj [(k, rawv)])] "confidence")).getD (1/2)),
            clamp01 ((extractNumeric (pyGet [("offer", JVal.obj [("dimension_values", JVal.obj [(k, rawv)])])] "batna_assessment")).getD (1/2)),
            clamp01 ((extractNumeric (pyGet [("offer", JVal.obj [("dimension_values", JVal.obj [(k, rawv)])])] "walk_away_threshold")).getD (3/10))⟩ := by
        unfold normalizeModelOutput
        rw [hrf, ok_bind, hof, ok_bind, hdv, ok_bind, hidx, ok_bind]
        rw [show productKeyMapE [] = Except.ok [] from rfl, ok_bind]
        rw [hnd, ok_bind, hact, ok_bind]
      have heq := hout.symm.trans hfull
      simp only [Except.ok.injEq] at heq
      rw [heq]
    · rw [if_neg ht]
      have hnd : normDimsAux dims idx (!(([] : List JVal)).isEmpty) [] [] [(k, rawv)] =
          Except.ok [(k, finalizeVal m ul (safeFloatConvert (targetValueOf dims k)))] := by
        rw [normDimsAux]
        simp only [hck, hnone, hm]
        rw [if_neg ht, hul]
        rfl
      have hfull : normalizeModelOutput
          (JVal.obj [("offer",
            JVal.obj [("dimension_values", JVal.obj [(k, rawv)])])]) dims [] =
          Except.ok ⟨"continue",
            [(k, finalizeVal m ul (safeFloatConvert (targetValueOf dims k)))],
            clamp01 ((extractNumeric (pyGet [("dimension_values", JVal.obj [(k, rawv)])] "confidence")).getD (1/2)),
            clamp01 ((extractNumeric (pyGet [("offer", JVal.obj [("dimension_values", JVal.obj [(k, rawv)])])] "batna_assessment")).getD (1/2)),
            clamp01 ((extractNumeric (pyGet [("offer", JVal.obj [("dimension_values", JVal.obj [(k, rawv)])])] "walk_away_threshold")).getD (3/10))⟩ := by
        unfold normalizeModelOutput
        rw [hrf, ok_bind, hof, ok_bind, hdv, ok_bind, hidx, ok_bind]
        rw [show productKeyMapE [] = Except.ok [] from rfl, ok_bind]
        rw [hnd, ok_bind, hact, ok_bind]
      have heq := hout.symm.trans hfull
      simp only [Except.ok.injEq] at heq
      rw [heq]

/-- Counterexample to C3 as stated: for the dimension `Price` with
`minValue 0`, `maxValue 100` and **no** `targetValue`, the unparsable
value `"abc"` does not fall back to the midpoint 50 — the key is
dropped from the normalized offer. -/
theorem c3_counterexample :
    (normalizeModelOutput
        (JVal.obj [("offer", JVal.obj [("dimension_values",
          JVal.obj [("Price", JVal.str "abc")])])])
        [JVal.obj [("name", JVal.str "Price"), ("minValue", JVal.num 0),
          ("maxValue", JVal.num 100)]]
        []).toOption.map (fun r => lookupStr r.dimensionValues "Price") =
      some none ∧
    dimIndexE [JVal.obj [("name", JVal.str "Price"), ("minValue", JVal.num 0),
        ("maxValue", JVal.num 100)]] =
      Except.ok [("Price", ⟨0, 100, JVal.str ""⟩)] :=
  ⟨by decide, rfl⟩

/-- Witness for C3 (amended): with the dimension `Menge` (bounds 0/100,
`targetValue 30`, no unit) and the unparsable value `"unbekannt"`, the
normalizer falls back to the target value 30. -/
theorem c3_target_fallback_no_midpoint_witness :
    ∃ out,
      normalizeModelOutput
        (JVal.obj [("offer", JVal.obj [("dimension_values",
          JVal.obj [("Menge", JVal.str "unbekannt")])])])
        [JVal.obj [("name", JVal.str "Menge"), ("minValue", JVal.num 0),
          ("maxValue", JVal.num 100), ("targetValue", JVal.num 30)]]
        [] = Except.ok out ∧
      out.dimensionValues =
        (if isNullB (targetValueOf
            [JVal.obj [("name", JVal.str "Menge"), ("minValue", JVal.num 0),
              ("maxValue", JVal.num 100), ("targetValue", JVal.num 30)]] "Menge")
         then []
         else [("Menge", finalizeVal ⟨0, 100, JVal.str ""⟩ ""
            (safeFloatConvert (targetValueOf
              [JVal.obj [("name", JVal.str "Menge"), ("minValue", JVal.num 0),
                ("maxValue", JVal.num 100), ("targetValue", JVal.num 30)]]
              "Menge")))]) := by
  have h0 : normalizeModelOutput
      (JVal.obj [("offer", JVal.obj [("dimension_values",
        JVal.obj [("Menge", JVal.str "unbekannt")])])])
      [JVal.obj [("name", JVal.str "Menge"), ("minValue", JVal.num 0),
        ("maxValue", JVal.num 100), ("targetValue", JVal.num 30)]]
      [] = Except.ok
        ⟨"continue", [("Menge", finalizeVal ⟨0, 100, JVal.str ""⟩ ""
            (safeFloatConvert (JVal.num 30)))],
          clamp01 ((extractNumeric JVal.null).getD (1/2)),
          clamp01 ((extractNumeric JVal.null).getD (1/2)),
          clamp01 ((extractNumeric JVal.null).getD (3/10))⟩ := rfl
  refine ⟨_, h0, ?_⟩
  exact (c3_target_fallback_no_midpoint "Menge" (JVal.str "unbekannt")
    [JVal.obj [("name", JVal.str "Menge"), ("minValue", JVal.num 0),
      ("maxValue", JVal.num 100), ("targetValue", JVal.num 30)]]
    [("Menge", ⟨0, 100, JVal.str ""⟩)] _ rfl (by decide) h0).2
    ⟨0, 100, JVal.str ""⟩ "" rfl rfl

/-! ## Bounds clamping and rounding (C4) -/

lemma le_pyRound (q : ℚ) : ⌊q⌋ ≤ pyRound q := by
  unfold pyRound
  rw [← Rat.floor_def]
  dsimp only
  split
  · exact le_refl _
  · split
    · omega
    · split <;> omega

lemma pyRound_le_ceil (q : ℚ) : pyRound q ≤ ⌈q⌉ := by
  have hfc := Int.floor_le_ceil q
  have hkey : ((q.den : ℤ) ≤ 2 * (q.num - ⌊q⌋ * (q.den : ℤ))) → ⌊q⌋ + 1 ≤ ⌈q⌉ := by
    intro h
    have hden : (0 : ℤ) < (q.den : ℤ) := by exact_mod_cast q.den_pos
    have h1 : ⌊q⌋ * (q.den : ℤ) < q.num := by omega
    have h2 : (⌊q⌋ : ℚ) < q := by
      conv_rhs => rw [← Rat.num_div_den q]
      rw [lt_div_iff₀ (by positivity)]
      exact_mod_cast h1
    have h3 : ⌊q⌋ < ⌈q⌉ := Int.lt_ceil.mpr h2
    omega
  unfold pyRound
  rw [← Rat.floor_def]
  dsimp only
  split
  · exact hfc
  · split
    · exact hkey (by omega)
    · split
      · exact hfc
      · exact hkey (by omega)

lemma pyRound_mem_Icc {mn mx q : ℚ} (hmn : mn.den = 1) (hmx : mx.den = 1)
    (h1 : mn ≤ q) (h2 : q ≤ mx) :
    mn ≤ (pyRound q : ℚ) ∧ (pyRound q : ℚ) ≤ mx := by
  constructor
  · have hm : mn.num ≤ ⌊q⌋ := Int.le_floor.mpr
      (by rw [Rat.coe_int_num_of_den_eq_one hmn]; exact h1)
    have h3 : mn.num ≤ pyRound q := le_trans hm (le_pyRound q)
    calc mn = (mn.num : ℚ) := (Rat.coe_int_num_of_den_eq_one hmn).symm
    _ ≤ (pyRound q : ℚ) := by exact_mod_cast h3
  · have hm : ⌈q⌉ ≤ mx.num := Int.ceil_le.mpr
      (by rw [Rat.coe_int_num_of_den_eq_one hmx]; exact h2)
    have h3 : pyRound q ≤ mx.num := le_trans (pyRound_le_ceil q) hm
    calc (pyRound q : ℚ) ≤ (mx.num : ℚ) := by exact_mod_cast h3
    _ = mx := Rat.coe_int_num_of_den_eq_one hmx

lemma finalizeVal_mem {m : DimMeta} {ul : String} (v0 : ℚ)
    (hmm : m.min ≤ m.max)
    (hint : unitRounds ul = true → m.min.den = 1 ∧ m.max.den = 1) :
    m.min ≤ finalizeVal m ul v0 ∧ finalizeVal m ul v0 ≤ m.max := by
  unfold finalizeVal
  have hc1 : m.min ≤ min (max v0 m.min) m.max := le_min (le_max_right _ _) hmm
  have hc2 : min (max v0 m.min) m.max ≤ m.max := min_le_right _ _
  by_cases hr : unitRounds ul
  · rw [if_pos hr]
    exact pyRound_mem_Icc (hint hr).1 (hint hr).2 hc1 hc2
  · rw [if_neg hr]
    exact ⟨hc1, hc2⟩

/-- C4 (amended): every numeric value in the normalized offer whose key
has a registry entry lies within that entry's `[min, max]` — provided
`min ≤ max` and, **when the dimension's unit triggers integer rounding
(currency, days/weeks/months/years, percent), the bounds are integers**.
(The unamended claim fails: rounding happens after clamping and can
leave non-integral bounds, see the counterexample.) -/
theorem c4_bounds_clamping (response : JVal) (dims products : List JVal)
    (out : NormResult) (idx : List (String × DimMeta)) (k : String) (v : ℚ)
    (m : DimMeta)
    (hout : normalizeModelOutput response dims products = Except.ok out)
    (hidx : dimIndexE dims = Except.ok idx)
    (hkv : (k, v) ∈ out.dimensionValues)
    (hm : lookupStr idx k = some m)
    (hmm : m.min ≤ m.max)
    (hint : ∀ ul, unitStrE m.unit = Except.ok ul → unitRounds ul = true →
        m.min.den = 1 ∧ m.max.den = 1) :
    m.min ≤ v ∧ v ≤ m.max := by
  obtain ⟨idx2, pkMap, dimVals, hidx2, hpk, hnd⟩ :=
    normalizeModelOutput_inv response dims products out hout
  have hidxeq : idx2 = idx := by
    rw [hidx] at hidx2
    cases hidx2
    rfl
  subst hidxeq
  obtain ⟨v0, ul, hul, hveq⟩ :=
    normDimsAux_values dims idx2 (!products.isEmpty) pkMap dimVals []
      out.dimensionValues hnd (by intro kv hkv2; cases hkv2) (k, v) hkv m hm
  rw [show v = (k, v).2 from rfl, hveq]
  exact finalizeVal_mem v0 hmm (hint ul hul)

/-- Counterexample to C4 as stated: for the dimension `Lieferzeit` with
fractional bounds `[1.2, 1.6]` and unit `days`, the in-bounds value 1.6
is clamped (to itself) and then rounded to 2, which exceeds
`maxValue = 1.6`. -/
theorem c4_counterexample :
    (normalizeModelOutput
        (JVal.obj [("offer", JVal.obj [("dimension_values",
          JVal.obj [("Lieferzeit", JVal.num (Rat.divInt 8 5))])])])
        [JVal.obj [("name", JVal.str "Lieferzeit"),
          ("minValue", JVal.num (Rat.divInt 6 5)),
          ("maxValue", JVal.num (Rat.divInt 8 5)),
          ("unit", JVal.str "days")]]
        []).toOption.map NormResult.dimensionValues =
      some [("Lieferzeit", 2)] ∧
    dimIndexE [JVal.obj [("name", JVal.str "Lieferzeit"),
        ("minValue", JVal.num (Rat.divInt 6 5)),
        ("maxValue", JVal.num (Rat.divInt 8 5)),
        ("unit", JVal.str "days")]] =
      Except.ok [("Lieferzeit", ⟨Rat.divInt 6 5, Rat.divInt 8 5, JVal.str "days"⟩)] ∧
    ¬ ((2 : ℚ) ≤ Rat.divInt 8 5) := by
  refine ⟨by decide, rfl, by decide⟩

/-- Witness for C4 (amended): the offer value `"2,50"` for dimension
`Preis` (bounds `[1, 2]`, unit `EUR`) is coerced to `2.5`, clamped to 2
and rounded to 2, which lies within the bounds. -/
theorem c4_bounds_clamping_witness : (1 : ℚ) ≤ 2 ∧ (2 : ℚ) ≤ 2 :=
  c4_bounds_clamping
    (JVal.obj [("offer", JVal.obj [("dimension_values",
      JVal.obj [("Preis", JVal.str "2,50")])])])
    [JVal.obj [("name", JVal.str "Preis"), ("minValue", JVal.num 1),
      ("maxValue", JVal.num 2), ("unit", JVal.str "EUR")]]
    []
    ⟨"continue", [("Preis", 2)],
      clamp01 ((extractNumeric JVal.null).getD (1/2)),
      clamp01 ((extractNumeric JVal.null).getD (1/2)),
      clamp01 ((extractNumeric JVal.null).getD (3/10))⟩
    [("Preis", ⟨1, 2, JVal.str "EUR"⟩)] "Preis" 2 ⟨1, 2, JVal.str "EUR"⟩
    rfl rfl (by decide) rfl (by norm_num) (fun _ _ _ => ⟨by decide, by decide⟩)

/-! ## Missing bounds clamp to zero (C10) -/

lemma pyRound_zero : pyRound 0 = 0 := by decide

lemma finalizeVal_zero {m : DimMeta} {ul : String} (v0 : ℚ)
    (h0 : m.min = 0) (h1 : m.max = 0) : finalizeVal m ul v0 = 0 := by
  unfold finalizeVal
  rw [h0, h1]
  have hc : min (max v0 0) 0 = 0 := min_eq_right (le_max_right v0 0)
  rw [hc]
  by_cases hr : unitRounds ul
  · rw [if_pos hr, pyRound_zero]
    simp
  · rw [if_neg hr]

/-- C10: a registry dimension that lacks all of
`minValue`/`min`/`maxValue`/`max` gets its bounds converted to `0.0` by
`_safe_float_convert`, and consequently every numeric offer value for
such a dimension is clamped to exactly `0.0` (never passed through
unclamped). -/
theorem c10_missing_bounds_clamp_to_zero :
    (∀ fs : Obj, getOpt fs "minValue" = none → getOpt fs "min" = none →
      getOpt fs "maxValue" = none → getOpt fs "max" = none →
      (mkDimEntry fs).min = 0 ∧ (mkDimEntry fs).max = 0) ∧
    (∀ (response : JVal) (dims products : List JVal) (out : NormResult)
      (idx : List (String × DimMeta)) (k : String) (v : ℚ) (m : DimMeta),
      normalizeModelOutput response dims products = Except.ok out →
      dimIndexE dims = Except.ok idx →
      (k, v) ∈ out.dimensionValues →
      lookupStr idx k = some m → m.min = 0 → m.max = 0 → v = 0) := by
  constructor
  · intro fs h1 h2 h3 h4
    unfold mkDimEntry pyGetD pyGet
    rw [h1, h2, h3, h4]
    exact ⟨rfl, rfl⟩
  · intro response dims products out idx k v m hout hidx hkv hm h0 h1
    obtain ⟨idx2, pkMap, dimVals, hidx2, hpk, hnd⟩ :=
      normalizeModelOutput_inv response dims products out hout
    have hidxeq : idx2 = idx := by
      rw [hidx] at hidx2
      cases hidx2
      rfl
    subst hidxeq
    obtain ⟨v0, ul, hul, hveq⟩ :=
      normDimsAux_values dims idx2 (!products.isEmpty) pkMap dimVals []
        out.dimensionValues hnd (by intro kv hkv2; cases hkv2) (k, v) hkv m hm
    rw [show v = (k, v).2 from rfl, hveq]
    exact finalizeVal_zero v0 h0 h1

/-- Witness for C10: the boundless dimension `Menge` produces the index
entry `(0, 0)` and the offer value 5 is clamped to exactly 0. -/
theorem c10_missing_bounds_clamp_to_zero_witness :
    ((mkDimEntry [("name", JVal.str "Menge")]).min = 0 ∧
      (mkDimEntry [("name", JVal.str "Menge")]).max = 0) ∧ (0 : ℚ) = 0 :=
  ⟨c10_missing_bounds_clamp_to_zero.1 [("name", JVal.str "Menge")]
      rfl rfl rfl rfl,
    c10_missing_bounds_clamp_to_zero.2
      (JVal.obj [("offer", JVal.obj [("dimension_values",
        JVal.obj [("Menge", JVal.num 5)])])])
      [JVal.obj [("name", JVal.str "Menge")]] []
      ⟨"continue", [("Menge", 0)],
        clamp01 ((extractNumeric JVal.null).getD (1/2)),
        clamp01 ((extractNumeric JVal.null).getD (1/2)),
        clamp01 ((extractNumeric JVal.null).getD (3/10))⟩
      [("Menge", ⟨0, 0, JVal.str ""⟩)] "Menge" 0 ⟨0, 0, JVal.str ""⟩
      rfl rfl (by decide) rfl rfl rfl⟩

/-! ## Guardrail withholding (C8) -/

/-- The top-level product keys that carry minimum/maximum guardrail
prices. -/
def minMaxKeys : List String :=
  ["minPreis", "minPrice", "priceFloor", "maxPreis", "maxPrice",
   "priceCeiling", "minMaxPreis"]

/-- Erase the guardrail-price fields of a product dict (other values
are untouched); two products with the same image differ only in their
min/max guardrail prices. -/
def stripMinMax : JVal → JVal
  | JVal.obj fs => JVal.obj (fs.filter (fun p => !(minMaxKeys.contains p.1)))
  | v => v

lemma getOpt_filter_minMax (fs : Obj) (k : String)
    (hk : minMaxKeys.contains k = false) :
    getOpt fs k = getOpt (fs.filter (fun p => !(minMaxKeys.contains p.1))) k := by
  induction fs with
  | nil => rfl
  | cons p t ih =>
      by_cases hp : minMaxKeys.contains p.1
      · have hne : (p.1 == k) = false := by
          rw [beq_eq_false_iff_ne]
          intro he
          rw [he] at hp
          rw [hp] at hk
          cases hk
        simp only [getOpt, List.find?, hne, List.filter_cons, hp,
          Bool.not_true, Bool.false_eq_true, if_false]
        exact ih
      · have hc : minMaxKeys.contains p.1 = false := Bool.eq_false_iff.mpr hp
        have hp' : (!(minMaxKeys.contains p.1)) = true := by
          rw [hc]
          rfl
        simp only [getOpt, List.filter_cons, hp', if_true, List.find?]
        by_cases he : (p.1 == k)
        · rw [he]
        · rw [Bool.of_not_eq_true he]
          exact ih

lemma getOpt_eq_of_strip {fs1 fs2 : Obj}
    (h : fs1.filter (fun p => !(minMaxKeys.contains p.1)) =
         fs2.filter (fun p => !(minMaxKeys.contains p.1)))
    (k : String) (hk : minMaxKeys.contains k = false) :
    getOpt fs1 k = getOpt fs2 k := by
  rw [getOpt_filter_minMax fs1 k hk, h, ← getOpt_filter_minMax fs2 k hk]

lemma attrsOf_eq_of_strip {fs1 fs2 : Obj}
    (h : fs1.filter (fun p => !(minMaxKeys.contains p.1)) =
         fs2.filter (fun p => !(minMaxKeys.contains p.1))) :
    attrsOf fs1 = attrsOf fs2 := by
  unfold attrsOf
  rw [getOpt_eq_of_strip h "attrs" rfl]

lemma pyGet_eq_of_strip {fs1 fs2 : Obj}
    (h : fs1.filter (fun p => !(minMaxKeys.contains p.1)) =
         fs2.filter (fun p => !(minMaxKeys.contains p.1)))
    (k : String) (hk : minMaxKeys.contains k = false) :
    pyGet fs1 k = pyGet fs2 k := by
  unfold pyGet
  rw [getOpt_eq_of_strip h k hk]

lemma extractProductName_eq_of_strip {fs1 fs2 : Obj}
    (h : fs1.filter (fun p => !(minMaxKeys.contains p.1)) =
         fs2.filter (fun p => !(minMaxKeys.contains p.1))) :
    extractProductName fs1 = extractProductName fs2 := by
  unfold extractProductName
  rw [pyGet_eq_of_strip h "name" rfl, pyGet_eq_of_strip h "produktName" rfl,
    attrsOf_eq_of_strip h]

lemma extractProductField_eq_of_strip {fs1 fs2 : Obj}
    (h : fs1.filter (fun p => !(minMaxKeys.contains p.1)) =
         fs2.filter (fun p => !(minMaxKeys.contains p.1))) :
    ∀ (ks : List String), (∀ k ∈ ks, minMaxKeys.contains k = false) →
      extractProductField fs1 ks = extractProductField fs2 ks
  | [], _ => rfl
  | k :: ks, hks => by
      have hk : minMaxKeys.contains k = false := hks k (List.mem_cons_self k ks)
      have hrest : ∀ k2 ∈ ks, minMaxKeys.contains k2 = false := fun k2 hk2 =>
        hks k2 (List.mem_cons_of_mem k hk2)
      unfold extractProductField
      rw [attrsOf_eq_of_strip h]
      rw [show hasKey fs1 k = hasKey fs2 k from by
        unfold hasKey
        rw [getOpt_eq_of_strip h k hk]]
      rw [pyGet_eq_of_strip h k hk]
      rw [extractProductField_eq_of_strip h ks hrest]

lemma pricingLinesAux_opponent_strip (role : String) (ctx : JVal) :
    ∀ (ps1 ps2 : List JVal) (acc : PricingLines),
      ps1.map stripMinMax = ps2.map stripMinMax →
      pricingLinesAux role false ctx acc ps1 =
        pricingLinesAux role false ctx acc ps2
  | [], ps2, acc, h => by
      have : ps2 = [] := by
        cases ps2 with
        | nil => rfl
        | cons q t2 => simp at h
      rw [this]
  | p :: t1, ps2, acc, h => by
      cases ps2 with
      | nil => simp at h
      | cons q t2 =>
          simp only [List.map_cons, List.cons.injEq] at h
          obtain ⟨hpq, ht⟩ := h
          cases p with
          | obj fs1 =>
              cases q with
              | obj fs2 =>
                  have hf : fs1.filter (fun p => !(minMaxKeys.contains p.1)) =
                      fs2.filter (fun p => !(minMaxKeys.contains p.1)) := by
                    simpa [stripMinMax] using hpq
                  simp only [pricingLinesAux, Bool.false_eq_true, if_false]
                  rw [extractProductName_eq_of_strip hf,
                    extractProductField_eq_of_strip hf targetPriceKeys (by decide),
                    extractProductField_eq_of_strip hf volumeKeys (by decide)]
                  rcases hadj : adjustedTargetPrice
                      (extractProductField fs2 targetPriceKeys) role false ctx with
                    e | tp
                  · rw [error_bind, error_bind]
                  · rw [ok_bind, ok_bind]
                    exact pricingLinesAux_opponent_strip role ctx t1 t2 _ ht
              | null => exact absurd hpq (by simp [stripMinMax])
              | bool b => exact absurd hpq (by simp [stripMinMax])
              | num qn => exact absurd hpq (by simp [stripMinMax])
              | str sv => exact absurd hpq (by simp [stripMinMax])
              | arr xs => exact absurd hpq (by simp [stripMinMax])
          | null =>
              cases q with
              | obj fs2 => exact absurd hpq (by simp [stripMinMax])
              | null => rfl
              | bool b => exact absurd hpq (by simp [stripMinMax])
              | num qn => exact absurd hpq (by simp [stripMinMax])
              | str sv => exact absurd hpq (by simp [stripMinMax])
              | arr xs => exact absurd hpq (by simp [stripMinMax])
          | bool b =>
              cases q <;> first
                | exact rfl
                | exact absurd hpq (by simp [stripMinMax])
          | num qn =>
              cases q <;> first
                | exact rfl
                | exact absurd hpq (by simp [stripMinMax])
          | str sv =>
              cases q <;> first
                | exact rfl
                | exact absurd hpq (by simp [stripMinMax])
          | arr xs =>
              cases q <;> first
                | exact rfl
                | exact absurd hpq (by simp [stripMinMax])

/-- C8: the opponent-facing pricing text never contains the guardrail
prices — for any two product lists that differ only in their
minimum/maximum price fields, the opponent view
(`use_self_prompt = False`) is identical (only the distance-adjusted
target prices are shown), while the self view does render its own
min/max guardrail (`Maximalpreis` for a BUYER) and the opponent view of
the same product withholds it. -/
theorem c8_guardrails_withheld (ps1 ps2 : List JVal) (role : String)
    (ctx : JVal) (h : ps1.map stripMinMax = ps2.map stripMinMax) :
    buildPricingStrings ps1 role false ctx =
      buildPricingStrings ps2 role false ctx ∧
    buildPricingStrings
        [JVal.obj [("name", JVal.str "P"), ("zielPreis", JVal.num 10),
          ("maxPreis", JVal.num 20)]] "BUYER" true JVal.null =
      Except.ok ⟨"- P", "- P: Zielpreis €10,00", "- P: Maximalpreis €20,00",
        "- P: Erwartetes Volumen – Einheiten"⟩ ∧
    buildPricingStrings
        [JVal.obj [("name", JVal.str "P"), ("zielPreis", JVal.num 10),
          ("maxPreis", JVal.num 20)]] "BUYER" false JVal.null =
      Except.ok ⟨"- P", "- P: Zielpreis €10,00", "Keine Min/Max-Werte verfügbar",
        "- P: Erwartetes Volumen – Einheiten"⟩ := by
  refine ⟨?_, rfl, rfl⟩
  cases ps1 with
  | nil =>
      cases ps2 with
      | nil => rfl
      | cons q t2 => simp at h
  | cons p t1 =>
      cases ps2 with
      | nil => simp at h
      | cons q t2 =>
          unfold buildPricingStrings
          simp only [List.isEmpty_cons, Bool.false_eq_true, if_false]
          rw [pricingLinesAux_opponent_strip role ctx (p :: t1) (q :: t2)
            { names := [], ziel := [], maxs := [], volumes := [] } h]

/-- Witness for C8: two copies of a product that differ only in
`minPreis`/`maxPreis` produce the same opponent view. -/
theorem c8_guardrails_withheld_witness :
    buildPricingStrings
        [JVal.obj [("name", JVal.str "P"), ("zielPreis", JVal.num 10),
          ("minPreis", JVal.num 5), ("maxPreis", JVal.num 20)]]
        "SELLER" false JVal.null =
      buildPricingStrings
        [JVal.obj [("name", JVal.str "P"), ("zielPreis", JVal.num 10),
          ("minPreis", JVal.num 7), ("maxPreis", JVal.num 95)]]
        "SELLER" false JVal.null :=
  (c8_guardrails_withheld
    [JVal.obj [("name", JVal.str "P"), ("zielPreis", JVal.num 10),
      ("minPreis", JVal.num 5), ("maxPreis", JVal.num 20)]]
    [JVal.obj [("name", JVal.str "P"), ("zielPreis", JVal.num 10),
      ("minPreis", JVal.num 7), ("maxPreis", JVal.num 95)]]
    "SELLER" JVal.null rfl).1

end Arian
